import Mathlib

/-
Shallow embedding of the Hunter Orchestration Core (C++ sources under
native/android/app/src/main/cpp) and proofs about its specification.

Modelling conventions:
* `std::string` is modelled as `List Char` (`Str`); for the ASCII data the
  program manipulates a byte corresponds to one `Char`.
* C++ exceptions are modelled with `Option`/`Except`: a `catch (...)` that
  returns `std::nullopt` corresponds to a `none` result.
* `double` latencies are modelled as `Rat` (every comparison in the code is
  exact at the constants involved).
* external collaborators (engine callbacks, telegram fetch hook, the
  vendored nlohmann JSON text parser) are parameters of the embedding.
-/

namespace Hunter

abbrev Str := List Char

/-- `::tolower` on one character (C locale: only A-Z change). -/
def charToLower (c : Char) : Char :=
  if 'A' ≤ c ∧ c ≤ 'Z' then Char.ofNat (c.toNat + 32) else c

/-- `to_lower` from core/utils.cpp. -/
def toLower (s : Str) : Str := s.map charToLower

def isTrimWs (c : Char) : Bool := c = ' ' ∨ c = '\t' ∨ c = '\r' ∨ c = '\n'

/-- `trim` from core/utils.cpp: strip leading and trailing " \t\r\n". -/
def trim (s : Str) : Str :=
  ((s.dropWhile isTrimWs).reverse.dropWhile isTrimWs).reverse

/-- `s.find(pat)` of `std::string`: index of the first occurrence. -/
def findSub : Str → Str → Option Nat
  | s, pat =>
    if pat.isPrefixOf s then some 0
    else
      match s with
      | [] => none
      | _ :: t => (findSub t pat).map (· + 1)

def containsSub (s pat : Str) : Bool := (findSub s pat).isSome

/-- `s.find(c)` of `std::string` for a single character. -/
def findCharIdx : Str → Char → Option Nat
  | [], _ => none
  | c :: t, x => if c = x then some 0 else (findCharIdx t x).map (· + 1)

/-- `s.rfind(c)` of `std::string` for a single character. -/
def rfindCharIdx (s : Str) (x : Char) : Option Nat :=
  (findCharIdx s.reverse x).map (fun i => s.length - 1 - i)

def hexVal (c : Char) : Option Nat :=
  if '0' ≤ c ∧ c ≤ '9' then some (c.toNat - 48)
  else if 'a' ≤ c ∧ c ≤ 'f' then some (c.toNat - 87)
  else if 'A' ≤ c ∧ c ≤ 'F' then some (c.toNat - 55)
  else none

/-- `istringstream >> std::hex` applied to two characters: reads the maximal
hex prefix, fails when the first character is not a hex digit (sign and
whitespace prefixes, impossible in extracted URIs, are not modelled). -/
def hex2 (c1 c2 : Char) : Option Nat :=
  match hexVal c1 with
  | none => none
  | some v1 =>
    match hexVal c2 with
    | none => some v1
    | some v2 => some (16 * v1 + v2)

/-- `url_decode` from core/utils.cpp.  On `%xy` with `x` a hex digit both
following characters are consumed (`i += 2`) even when `y` is not hex. -/
def urlDecode : Str → Str
  | [] => []
  | '%' :: c1 :: c2 :: rest =>
    match hex2 c1 c2 with
    | some v => Char.ofNat v :: urlDecode rest
    | none => '%' :: urlDecode (c1 :: c2 :: rest)
  | '+' :: rest => ' ' :: urlDecode rest
  | c :: rest => c :: urlDecode rest

/-- `clean_ps_string` from core/utils.cpp: keep printable ASCII, trim,
fall back to "Unknown". -/
def cleanPsString (ps : Str) : Str :=
  let r := trim (ps.filter (fun c => c.toNat ≤ 0x7F ∧ 0x20 ≤ c.toNat))
  if r = [] then "Unknown".data else r

/-- the decode table `T` of `safe_b64decode` (URL-safe characters have been
mapped to `+`/`/` before lookup). -/
def b64Val (c : Char) : Option Nat :=
  if 'A' ≤ c ∧ c ≤ 'Z' then some (c.toNat - 65)
  else if 'a' ≤ c ∧ c ≤ 'z' then some (c.toNat - 71)
  else if '0' ≤ c ∧ c ≤ '9' then some (c.toNat + 4)
  else if c = '+' then some 62
  else if c = '/' then some 63
  else none

def b64DecodeLoop : Str → Nat → Int → Str → Str
  | [], _, _, acc => acc.reverse
  | c :: rest, val, valb, acc =>
    if c = '=' ∨ c = '\n' ∨ c = '\r' then acc.reverse
    else
      match b64Val c with
      | none => b64DecodeLoop rest val valb acc
      | some d =>
        let val2 := val * 64 + d
        let valb2 := valb + 6
        if 0 ≤ valb2 then
          b64DecodeLoop rest val2 (valb2 - 8)
            (Char.ofNat ((val2 >>> valb2.toNat) % 256) :: acc)
        else b64DecodeLoop rest val2 valb2 acc

/-- `safe_b64decode` from core/utils.cpp: pad to a multiple of 4, map the
URL-safe alphabet to the standard one, then decode (stopping at `=`). -/
def safeB64decode (data : Str) : Str :=
  let padded := data ++ List.replicate ((4 - data.length % 4) % 4) '='
  let mapped := padded.map (fun c => if c = '-' then '+' else if c = '_' then '/' else c)
  b64DecodeLoop mapped 0 (-8) []

def isCppSpace (c : Char) : Bool :=
  c = ' ' ∨ c = '\t' ∨ c = '\n' ∨ c = '\r' ∨ c.toNat = 11 ∨ c.toNat = 12

def isDigitChar (c : Char) : Bool := '0' ≤ c ∧ c ≤ '9'

def digitsToNat (ds : Str) : Nat := ds.foldl (fun a c => a * 10 + (c.toNat - 48)) 0

/-- `std::stoi` (base 10): skip whitespace, optional sign, maximal digit
prefix; `none` models `std::invalid_argument` (no digits) and
`std::out_of_range` (outside 32-bit `int`). -/
def cppStoi (s : Str) : Option Int :=
  let s1 := s.dropWhile isCppSpace
  let signed : Int × Str :=
    match s1 with
    | '-' :: t => (-1, t)
    | '+' :: t => (1, t)
    | _ => (1, s1)
  let ds := signed.2.takeWhile isDigitChar
  if ds = [] then none
  else
    let v : Int := signed.1 * (digitsToNat ds : Int)
    if v < -(2 ^ 31) ∨ (2 ^ 31 - 1 : Int) < v then none else some v

/-- `static_cast<int>` from a wider integer: wrap into `[-2^31, 2^31)`. -/
def toInt32 (n : Int) : Int := (n + 2 ^ 31).emod (2 ^ 32) - 2 ^ 31

-- ---------- Tier classification (core/utils.cpp, tier_for_latency) ----------

/-- `tier_for_latency` from core/utils.cpp. -/
def tier_for_latency (latency_ms : Rat) : Str :=
  if latency_ms < 200 then "gold".data
  else if latency_ms < 800 then "silver".data
  else if latency_ms > 2000 then "dead".data
  else "silver".data

-- ---------- Config analysis (core/utils.cpp) ----------

def CDN_WHITELIST_DOMAINS : List Str :=
  ["cloudflare.com", "cdn.cloudflare.com", "cloudflare-dns.com",
   "fastly.net", "fastly.com", "global.fastly.net",
   "akamai.net", "akamaiedge.net", "akamaihd.net",
   "azureedge.net", "azure.com", "microsoft.com",
   "amazonaws.com", "cloudfront.net", "awsglobalaccelerator.com",
   "googleusercontent.com", "googleapis.com", "gstatic.com",
   "edgecastcdn.net", "stackpathdns.com",
   "cdn77.org", "cdnjs.cloudflare.com",
   "jsdelivr.net", "unpkg.com",
   "workers.dev", "pages.dev",
   "vercel.app", "netlify.app",
   "arvancloud.ir", "arvancloud.com", "r2.dev",
   "arvan.run", "arvanstorage.ir", "arvancdn.ir",
   "arvancdn.com", "cdn.arvancloud.ir"].map (·.data)

def IRAN_BLOCKED_PATTERNS : List Str :=
  ["ir.", ".ir", "iran",
   "0.0.0.0", "127.0.0.1", "localhost",
   "10.10.34.", "192.168."].map (·.data)

/-- `is_cdn_based` from core/utils.cpp. -/
def is_cdn_based (uri : Str) : Bool :=
  CDN_WHITELIST_DOMAINS.any (fun d => containsSub (toLower uri) (toLower d))

/-- `is_likely_blocked` from core/utils.cpp. -/
def is_likely_blocked (uri : Str) : Bool :=
  IRAN_BLOCKED_PATTERNS.any (fun p => containsSub (toLower uri) p)

/-- `is_ipv4_preferred` from core/utils.cpp: no bracketed (IPv6) host. -/
def is_ipv4_preferred (uri : Str) : Bool :=
  ¬ ((findCharIdx uri '[').isSome ∧ (findCharIdx uri ']').isSome)

-- ---------- Config prioritization (core/utils.cpp, prioritize_configs) ----------

/-- the tier (1-8) a non-blocked URI is pushed to by `prioritize_configs`;
a line-by-line mirror of the branch structure of core/utils.cpp 417-479. -/
def classify_tier (uri : Str) : Nat :=
  let lower := toLower uri
  let cdn := is_cdn_based uri
  if ¬ is_ipv4_preferred uri then 7
  else if lower.take 8 = "vless://".data then
    let reality := containsSub lower "reality".data ∨ containsSub lower "pbk=".data
    let grpc := containsSub lower "grpc".data ∨ containsSub lower "gun".data
    let h2 := containsSub lower "h2".data ∨ containsSub lower "http/2".data
    let ws := containsSub lower "ws".data ∨ containsSub lower "websocket".data
    let tls443 := containsSub uri ":443".data ∧
      (containsSub lower "security=tls".data ∨ containsSub lower "tls".data)
    if reality ∧ cdn then 1
    else if reality then 2
    else if grpc ∨ h2 then 3
    else if ws ∧ tls443 then 4
    else if tls443 then 6
    else 8
  else if lower.take 9 = "trojan://".data then
    let grpc := containsSub lower "grpc".data ∨ containsSub lower "gun".data
    let ws := containsSub lower "ws".data ∨ containsSub lower "websocket".data
    let port443 := containsSub uri ":443".data
    if grpc then 3
    else if ws ∧ port443 then 4
    else if port443 then 6
    else 8
  else if lower.take 8 = "vmess://".data then
    let decoded := safeB64decode (uri.drop 8)
    let dl := toLower decoded
    let ws_net := containsSub dl "\"net\":\"ws\"".data
    let tls_on := containsSub dl "\"tls\":\"tls\"".data
    let grpc_net := containsSub dl "\"net\":\"grpc\"".data ∨ containsSub dl "\"net\":\"gun\"".data
    let p443 := containsSub dl "\"port\":\"443\"".data ∨ containsSub dl "\"port\":443".data
    if grpc_net ∧ tls_on then 3
    else if ws_net ∧ tls_on ∧ cdn then 5
    else if ws_net ∧ tls_on ∧ p443 then 4
    else if tls_on ∧ p443 then 6
    else 8
  else 8

structure Tiers where
  t1 : List Str := []
  t2 : List Str := []
  t3 : List Str := []
  t4 : List Str := []
  t5 : List Str := []
  t6 : List Str := []
  t7 : List Str := []
  t8 : List Str := []

def Tiers.push (ts : Tiers) (i : Nat) (uri : Str) : Tiers :=
  match i with
  | 1 => { ts with t1 := ts.t1 ++ [uri] }
  | 2 => { ts with t2 := ts.t2 ++ [uri] }
  | 3 => { ts with t3 := ts.t3 ++ [uri] }
  | 4 => { ts with t4 := ts.t4 ++ [uri] }
  | 5 => { ts with t5 := ts.t5 ++ [uri] }
  | 6 => { ts with t6 := ts.t6 ++ [uri] }
  | 7 => { ts with t7 := ts.t7 ++ [uri] }
  | _ => { ts with t8 := ts.t8 ++ [uri] }

/-- the single pass of `prioritize_configs` that drops blocked URIs and
distributes the rest over the eight tier vectors. -/
def buildTiers (uris : List Str) : Tiers :=
  uris.foldl
    (fun ts uri =>
      if is_likely_blocked uri then ts else ts.push (classify_tier uri) uri)
    {}

/-- `prioritize_configs` from core/utils.cpp.  `std::shuffle` with the
process-local RNG is abstracted as the `shuffle` parameter (the theorems
assume it permutes its input, which `std::shuffle` does). -/
def prioritize_configs (shuffle : List Str → List Str) (uris : List Str) : List Str :=
  let ts := buildTiers uris
  shuffle ts.t1 ++ shuffle ts.t2 ++ shuffle ts.t3 ++ shuffle ts.t4 ++
    shuffle ts.t5 ++ shuffle ts.t6 ++ shuffle ts.t7 ++ shuffle ts.t8

-- ---------- JSON values (for vendored nlohmann::json) ----------

/-- JSON values.  Objects keep insertion order in a list of fields (nlohmann
stores them in a `std::map`; all our accessors are key-based so the order is
irrelevant).  JSON numbers are modelled as integers (the program only reads
integral fields such as `port` and `aid`). -/
inductive Json where
  | null
  | bool (b : Bool)
  | num (n : Int)
  | str (s : Str)
  | arr (elems : List Json)
  | obj (fields : List (Str × Json))

/-- `j.find(key)`-style read access on objects. -/
def Json.getKey? : Json → Str → Option Json
  | .obj fs, k => (fs.find? (fun kv => kv.1 = k)).map (·.2)
  | _, _ => none

/-- nlohmann `contains`: `false` on non-objects. -/
def Json.containsKey (j : Json) (k : Str) : Bool :=
  match j with
  | .obj fs => fs.any (fun kv => kv.1 = k)
  | _ => false

/-- nlohmann non-const `operator[]` with a string key, read side: on an
object the stored value (`null` is inserted when the key is absent), on
`null` an empty object is materialised first; any other type raises
`type_error` (modelled as `none`). -/
def Json.index? : Json → Str → Option Json
  | .obj fs, k => some (((fs.find? (fun kv => kv.1 = k)).map (·.2)).getD .null)
  | .null, _ => some .null
  | _, _ => none

/-- nlohmann `value(key, default)` for a string default: the default when the
key is absent, the stored string when present; a present non-string value or
a non-object receiver raises `type_error` (modelled as `none`). -/
def Json.valueStr : Json → Str → Str → Option Str
  | .obj fs, k, d =>
    match fs.find? (fun kv => kv.1 = k) with
    | some kv => match kv.2 with | .str s => some s | _ => none
    | none => some d
  | _, _, _ => none

/-- nlohmann `operator[] =` on a string key: overwrite or append the field on
an object; a `null` becomes a fresh object.  Writing into any other type
raises `type_error` in C++; those receivers are excluded by the theorems'
hypotheses and left unchanged here. -/
def Json.setKey : Json → Str → Json → Json
  | .obj fs, k, v =>
    .obj (if fs.any (fun kv => kv.1 = k) then
            fs.map (fun kv => if kv.1 = k then (k, v) else kv)
          else fs ++ [(k, v)])
  | .null, k, v => .obj [(k, v)]
  | j, _, _ => j

/-- in-place mutation through a reference obtained by `operator[]` on an
existing key: rewrite that field of an object. -/
def Json.modifyKey (j : Json) (k : Str) (f : Json → Json) : Json :=
  match j with
  | .obj fs => .obj (fs.map (fun kv => if kv.1 = k then (k, f kv.2) else kv))
  | _ => j

def Json.getPath : Json → List Str → Option Json
  | j, [] => some j
  | j, k :: ks => match j.getKey? k with
    | some v => v.getPath ks
    | none => none

def Json.asStr : Option Json → Option Str
  | some (.str s) => some s
  | _ => none

-- ---------- URL parsing helpers (parsers/uri_parser.cpp) ----------

structure ParsedURL where
  scheme : Str := []
  username : Str := []
  hostname : Str := []
  port : Int := 0
  path : Str := []
  query : Str := []
  fragment : Str := []

/-- `parse_url` from parsers/uri_parser.cpp. -/
def parse_url (url : Str) : ParsedURL :=
  let r0 := url
  let sr : Str × Str :=
    match findSub r0 "://".data with
    | some i => (r0.take i, r0.drop (i + 3))
    | none => ([], r0)
  let scheme := sr.1
  let fr : Str × Str :=
    match findCharIdx sr.2 '#' with
    | some i => (urlDecode (sr.2.drop (i + 1)), sr.2.take i)
    | none => ([], sr.2)
  let fragment := fr.1
  let qr : Str × Str :=
    match findCharIdx fr.2 '?' with
    | some i => (fr.2.drop (i + 1), fr.2.take i)
    | none => ([], fr.2)
  let query := qr.1
  let pr : Str × Str :=
    match findCharIdx qr.2 '/' with
    | some i => (qr.2.drop i, qr.2.take i)
    | none => ([], qr.2)
  let path := pr.1
  let ur : Str × Str :=
    match findCharIdx pr.2 '@' with
    | some i => (urlDecode (pr.2.take i), pr.2.drop (i + 1))
    | none => ([], pr.2)
  let username := ur.1
  let remaining := ur.2
  match remaining with
  | '[' :: _ =>
    (match findCharIdx remaining ']' with
     | some be =>
       let hostname := (remaining.drop 1).take (be - 1)
       let afterBracket := remaining.drop (be + 1)
       let port : Int :=
         match afterBracket with
         | ':' :: pstr => (cppStoi pstr).getD 0
         | _ => 0
       { scheme, username, hostname, port, path, query, fragment }
     | none =>
       { scheme, username, hostname := [], port := 0, path, query, fragment })
  | _ =>
    match rfindCharIdx remaining ':' with
    | some i =>
      (match cppStoi (remaining.drop (i + 1)) with
       | some p =>
         { scheme, username, hostname := remaining.take i, port := p,
           path, query, fragment }
       | none =>
         { scheme, username, hostname := remaining, port := 0,
           path, query, fragment })
    | none =>
      { scheme, username, hostname := remaining, port := 0,
        path, query, fragment }

/-- plain split on a delimiter (n+1 parts). -/
def splitChar : Str → Char → List Str
  | [], _ => [[]]
  | c :: t, d =>
    if c = d then [] :: splitChar t d
    else
      match splitChar t d with
      | h :: r => (c :: h) :: r
      | [] => [[c]]

/-- `std::getline` in a loop: like a plain split but a trailing empty
segment is not produced. -/
def getlineSplit (s : Str) (d : Char) : List Str :=
  let parts := splitChar s d
  if parts.getLast? = some [] then parts.dropLast else parts

/-- `unordered_map::operator[] =`: overwrite or append a binding. -/
def insertParam (m : List (Str × Str)) (k v : Str) : List (Str × Str) :=
  if m.any (fun kv => kv.1 = k) then
    m.map (fun kv => if kv.1 = k then (k, v) else kv)
  else m ++ [(k, v)]

/-- `parse_query_string` from parsers/uri_parser.cpp. -/
def parse_query_string (query : Str) : List (Str × Str) :=
  (getlineSplit query '&').foldl
    (fun acc pair =>
      match findCharIdx pair '=' with
      | some eq => insertParam acc (urlDecode (pair.take eq)) (urlDecode (pair.drop (eq + 1)))
      | none => acc)
    []

/-- `get_param` from parsers/uri_parser.cpp. -/
def get_param (m : List (Str × Str)) (k : Str) (d : Str := []) : Str :=
  match m.find? (fun kv => kv.1 = k) with
  | some kv => kv.2
  | none => d

-- ---------- Parsers (parsers/uri_parser.cpp) ----------

structure HunterParsedConfig where
  uri : Str
  outbound : Json
  host : Str
  port : Int
  identity : Str
  ps : Str

/-- the TLS step and final record of `VMessParser::parse`
(uri_parser.cpp 161-175): add `tlsSettings` when `tls` is "tls". -/
def VMessParser.finish (j : Json) (uri host : Str) (port : Int) (uuid ps : Str)
    (outbound1 : Json) : Option HunterParsedConfig :=
  match j.valueStr "tls".data [] with
  | none => none
  | some tls2 =>
    if tls2 = "tls".data then
      match j.valueStr "sni".data host with
      | none => none
      | some sni =>
        some { uri,
               outbound := outbound1.modifyKey "streamSettings".data (fun ss =>
                 ss.setKey "tlsSettings".data (Json.obj [
                   ("serverName".data, .str sni),
                   ("allowInsecure".data, .bool false)])),
               host, port, identity := uuid, ps }
    else some { uri, outbound := outbound1, host, port, identity := uuid, ps }

/-- the websocket step of `VMessParser::parse` (uri_parser.cpp 154-159):
add `wsSettings` when `net` is "ws", then the TLS step. -/
def VMessParser.wsStep (j : Json) (uri host : Str) (port : Int) (uuid ps : Str)
    (outbound0 : Json) : Option HunterParsedConfig :=
  match j.valueStr "net".data [] with
  | none => none
  | some net2 =>
    if net2 = "ws".data then
      match j.valueStr "path".data "/".data, j.valueStr "host".data [] with
      | some wpath, some whost =>
        VMessParser.finish j uri host port uuid ps
          (outbound0.modifyKey "streamSettings".data (fun ss =>
            ss.setKey "wsSettings".data (Json.obj [
              ("path".data, .str wpath),
              ("headers".data, Json.obj [("Host".data, .str whost)])])))
      | _, _ => none
    else VMessParser.finish j uri host port uuid ps outbound0

/-- `VMessParser::parse` from parsers/uri_parser.cpp.  The vendored
`nlohmann::json::parse` of the base64-decoded payload is the external
parameter `jparse` (`none` models a parse exception, swallowed by the
surrounding `catch`); a `none` of any field read models the `type_error`
of the corresponding `value` call, all of which the same `catch` turns
into the not-parseable signal. -/
def VMessParser.parse (jparse : Str → Option Json) (uri : Str) : Option HunterParsedConfig :=
  if uri.length < 9 then none
  else
    match jparse (safeB64decode (uri.drop 8)) with
    | none => none
    | some j =>
      match j.valueStr "add".data [], j.index? "port".data,
            j.valueStr "id".data [], j.valueStr "ps".data "Unknown".data with
      | some host, some pj, some uuid, some ps0 =>
        let port : Int :=
          match pj with
          | .num n => toInt32 n
          | .str s => (cppStoi s).getD 0
          | _ => 0
        let ps := cleanPsString ps0
        if host = [] ∨ port = 0 ∨ uuid = [] ∨ host = "0.0.0.0".data then none
        else
          let alterId : Int :=
            if j.containsKey "aid".data then
              match j.getKey? "aid".data with
              | some (.num n) => toInt32 n
              | some (.str s) => (cppStoi s).getD 0
              | _ => 0
            else 0
          match j.valueStr "scy".data "auto".data, j.valueStr "net".data "tcp".data,
                j.valueStr "tls".data "none".data with
          | some scy, some net, some tls =>
            let outbound0 := Json.obj [
              ("protocol".data, .str "vmess".data),
              ("settings".data, Json.obj [
                ("vnext".data, .arr [Json.obj [
                  ("address".data, .str host),
                  ("port".data, .num port),
                  ("users".data, .arr [Json.obj [
                    ("id".data, .str uuid),
                    ("alterId".data, .num alterId),
                    ("security".data, .str scy)]])]])]),
              ("streamSettings".data, Json.obj [
                ("network".data, .str net),
                ("security".data, .str tls)])]
            VMessParser.wsStep j uri host port uuid ps outbound0
          | _, _, _ => none
      | _, _, _, _ => none

/-- `VLESSParser::parse` from parsers/uri_parser.cpp. -/
def VLESSParser.parse (uri : Str) : Option HunterParsedConfig :=
  let parsed := parse_url uri
  let params := parse_query_string parsed.query
  let uuid := parsed.username
  let host := parsed.hostname
  let port : Int := if parsed.port > 0 then parsed.port else 443
  let ps := cleanPsString (if parsed.fragment = [] then "Unknown".data else parsed.fragment)
  if host = [] ∨ uuid = [] ∨ host = "0.0.0.0".data then none
  else
    let security := get_param params "security".data "none".data
    let transport := get_param params "type".data "tcp".data
    let encryption := get_param params "encryption".data "none".data
    let outbound0 := Json.obj [
      ("protocol".data, .str "vless".data),
      ("settings".data, Json.obj [
        ("vnext".data, .arr [Json.obj [
          ("address".data, .str host),
          ("port".data, .num port),
          ("users".data, .arr [Json.obj [
            ("id".data, .str uuid),
            ("encryption".data, .str encryption)]])]])]),
      ("streamSettings".data, Json.obj [
        ("network".data, .str transport),
        ("security".data, .str security)])]
    let outbound1 :=
      if security = "tls".data ∨ security = "reality".data then
        let base := Json.obj [
          ("serverName".data, .str (get_param params "sni".data host)),
          ("allowInsecure".data, .bool false)]
        if security = "reality".data then
          let base2 := ((base.setKey "fingerprint".data
              (.str (get_param params "fp".data "chrome".data))).setKey
            "publicKey".data (.str (get_param params "pbk".data []))).setKey
            "shortId".data (.str (get_param params "sid".data []))
          outbound0.modifyKey "streamSettings".data
            (fun ss => ss.setKey "realitySettings".data base2)
        else
          outbound0.modifyKey "streamSettings".data
            (fun ss => ss.setKey "tlsSettings".data base)
      else outbound0
    let outbound2 :=
      if transport = "ws".data then
        outbound1.modifyKey "streamSettings".data (fun ss =>
          ss.setKey "wsSettings".data (Json.obj [
            ("path".data, .str (get_param params "path".data "/".data)),
            ("headers".data, Json.obj [("Host".data, .str (get_param params "host".data []))])]))
      else if transport = "grpc".data then
        outbound1.modifyKey "streamSettings".data (fun ss =>
          ss.setKey "grpcSettings".data (Json.obj [
            ("serviceName".data, .str (get_param params "serviceName".data []))]))
      else outbound1
    some { uri, outbound := outbound2, host, port, identity := uuid, ps }

/-- `TrojanParser::parse` from parsers/uri_parser.cpp. -/
def TrojanParser.parse (uri : Str) : Option HunterParsedConfig :=
  let parsed := parse_url uri
  let params := parse_query_string parsed.query
  let password := parsed.username
  let host := parsed.hostname
  let port : Int := if parsed.port > 0 then parsed.port else 443
  let ps := cleanPsString (if parsed.fragment = [] then "Unknown".data else parsed.fragment)
  if host = [] ∨ password = [] ∨ host = "0.0.0.0".data then none
  else
    let transport := get_param params "type".data "tcp".data
    let allow_insecure := get_param params "allowInsecure".data "0".data = "1".data
    let outbound := Json.obj [
      ("protocol".data, .str "trojan".data),
      ("settings".data, Json.obj [
        ("servers".data, .arr [Json.obj [
          ("address".data, .str host),
          ("port".data, .num port),
          ("password".data, .str password)]])]),
      ("streamSettings".data, Json.obj [
        ("network".data, .str transport),
        ("security".data, .str "tls".data),
        ("tlsSettings".data, Json.obj [
          ("serverName".data, .str (get_param params "sni".data host)),
          ("allowInsecure".data, .bool allow_insecure)])])]
    some { uri, outbound, host, port, identity := password, ps }

/-- the tail of `ShadowsocksParser::parse` from the second `@`-presence
check on (uri_parser.cpp 337-407): split `userinfo@host:port`, recover
`method:password` and build the config. -/
def ShadowsocksParser.fromCore (uri ps core : Str) : Option HunterParsedConfig :=
  match findCharIdx core '@' with
  | none => none
  | some at_pos =>
    let userinfo := core.take at_pos
    let hostport := core.drop (at_pos + 1)
    match findCharIdx hostport ':' with
    | none => none
    | some _ =>
      let mp0 : Str × Str :=
        let decoded := safeB64decode userinfo
        match findCharIdx decoded ':' with
        | some c => (decoded.take c, decoded.drop (c + 1))
        | none => ([], [])
      let mpassword? : Option (Str × Str) :=
        if mp0.1 = [] ∨ mp0.2 = [] then
          match findCharIdx userinfo ':' with
          | some c => some (userinfo.take c, userinfo.drop (c + 1))
          | none => none
        else some mp0
      match mpassword? with
      | none => none
      | some mp =>
        match rfindCharIdx hostport ':' with
        | none => none
        | some last_colon =>
          let host := hostport.take last_colon
          let port_str := hostport.drop (last_colon + 1)
          let port_digits := port_str.takeWhile isDigitChar
          match cppStoi port_digits with
          | none => none
          | some port =>
            if host = [] ∨ port = 0 ∨ host = "0.0.0.0".data then none
            else
              let outbound := Json.obj [
                ("protocol".data, .str "shadowsocks".data),
                ("settings".data, Json.obj [
                  ("servers".data, .arr [Json.obj [
                    ("address".data, .str host),
                    ("port".data, .num port),
                    ("method".data, .str mp.1),
                    ("password".data, .str mp.2)]])])]
              some { uri, outbound, host, port, identity := mp.1 ++ ':' :: mp.2, ps }

/-- `ShadowsocksParser::parse` from parsers/uri_parser.cpp.  An URI shorter
than 5 characters after fragment stripping makes `substr(5)` raise
`std::out_of_range`, swallowed by the surrounding `catch`. -/
def ShadowsocksParser.parse (uri : Str) : Option HunterParsedConfig :=
  let hp := findCharIdx uri '#'
  let ps : Str :=
    match hp with
    | some i => cleanPsString (urlDecode (uri.drop (i + 1)))
    | none => "Unknown".data
  let parsed_uri : Str :=
    match hp with
    | some i => uri.take i
    | none => uri
  if parsed_uri.length < 5 then none
  else
    let core0 := parsed_uri.drop 5
    let core1 :=
      match findCharIdx core0 '?' with
      | some q => core0.take q
      | none => core0
    let core :=
      match findCharIdx core1 '@' with
      | none => safeB64decode core1
      | some _ => core1
    ShadowsocksParser.fromCore uri ps core

/-- `UniversalParser::parse` from parsers/uri_parser.cpp. -/
def UniversalParser.parse (jparse : Str → Option Json) (uri : Str) :
    Option HunterParsedConfig :=
  if uri = [] ∨ findSub uri "://".data = none then none
  else
    match findSub uri "://".data with
    | none => none
    | some i =>
      let proto := toLower (uri.take i)
      if proto = "vmess".data then VMessParser.parse jparse uri
      else if proto = "vless".data then VLESSParser.parse uri
      else if proto = "trojan".data then TrojanParser.parse uri
      else if proto = "ss".data ∨ proto = "shadowsocks".data then ShadowsocksParser.parse uri
      else none

-- ---------- File lines and cache (core/utils.cpp, cache/cache.cpp) ----------

/-- `read_lines` from core/utils.cpp on a file modelled as its raw lines:
every line is trimmed and empty lines are dropped. -/
def read_lines (raw : List Str) : List Str := (raw.map trim).filter (fun l => l ≠ [])

/-- the selection loop of `append_unique_lines`: keep the input lines that
are non-empty and not yet in the (growing) `existing` set, first
occurrence only. -/
def collectNew : List Str → List Str → List Str
  | _, [] => []
  | existing, l :: rest =>
    if l ≠ [] ∧ l ∉ existing then l :: collectNew (l :: existing) rest
    else collectNew existing rest

/-- `append_unique_lines` from core/utils.cpp: returns the number of lines
appended and the new raw file contents (the I/O failure path, which returns
0 with the file unchanged, is not modelled: writes succeed). -/
def append_unique_lines (file : List Str) (lines : List Str) : Nat × List Str :=
  let newLines := collectNew (read_lines file) lines
  (newLines.length, if newLines = [] then file else file ++ newLines)

/-- `SmartCache` state: the two cache files as raw lines plus the failure
counter (cache/cache.h). -/
structure SmartCache where
  cache_file : List Str := []
  working_cache_file : List Str := []
  last_successful_fetch : Int := 0
  consecutive_failures : Int := 0

def SmartCache.targetFile (c : SmartCache) (working : Bool) : List Str :=
  if working then c.working_cache_file else c.cache_file

/-- `SmartCache::save_configs` from cache/cache.cpp (`now` abstracts
`now_ts()`). -/
def SmartCache.save_configs (c : SmartCache) (now : Int) (configs : List Str)
    (working : Bool) : Nat × SmartCache :=
  let r := append_unique_lines (c.targetFile working) configs
  let c1 := if working then { c with working_cache_file := r.2 }
            else { c with cache_file := r.2 }
  if 0 < r.1 then
    (r.1, { c1 with last_successful_fetch := now, consecutive_failures := 0 })
  else (r.1, c1)

/-- `SmartCache::record_failure` from cache/cache.cpp. -/
def SmartCache.record_failure (c : SmartCache) : SmartCache :=
  { c with consecutive_failures := c.consecutive_failures + 1 }

/-- `SmartCache::should_use_cache` from cache/cache.cpp. -/
def SmartCache.should_use_cache (c : SmartCache) : Bool :=
  2 ≤ c.consecutive_failures

-- ---------- Telegram scraper (telegram/scraper.cpp) ----------

/-- first-seen deduplication of a list. -/
def firstSeen : List Str → List Str
  | [] => []
  | a :: t => a :: firstSeen (t.filter (fun b => b ≠ a))
termination_by l => l.length
decreasing_by
  simp only [List.length_cons]
  exact Nat.lt_succ_of_le (List.length_filter_le _ _)

/-- the inner per-message loop of `scrape_configs`: insert extracted URIs
while below `limit`, skipping duplicates. -/
def keptLoop (limit : Int) : List Str → List Str → List Str
  | acc, [] => acc
  | acc, u :: us =>
    if (acc.length : Int) ≥ limit then acc
    else if u ∈ acc then keptLoop limit acc us
    else keptLoop limit (acc ++ [u]) us

/-- the per-channel double loop of `scrape_configs` (scraper.cpp 57-69):
`extract` abstracts `extract_raw_uris_from_text` together with the
iteration order of the `std::set` it returns. -/
def channel_kept (extract : Str → List Str) (limit : Int) (messages : List Str) : List Str :=
  messages.foldl
    (fun acc msg =>
      if (acc.length : Int) ≥ limit then acc else keptLoop limit acc (extract msg))
    []

/-- `std::set` accumulation across channels, as an insertion-ordered
duplicate-free list. -/
def setInsertAll (acc : List Str) (xs : List Str) : List Str :=
  xs.foldl (fun a u => if u ∈ a then a else a ++ [u]) acc

structure ScrapeState where
  configs : List Str
  fetched : List Str
  consec : Nat

/-- the channel loop of `TelegramScraper::scrape_configs` (scraper.cpp
47-82), instrumented with the list of channels actually passed to the fetch
hook.  `fetch` abstracts the telegram fetch callback; `.error` models an
exception reaching the per-channel `catch`. -/
def scrapeAux (fetch : Str → Int → Except Unit (List Str)) (extract : Str → List Str)
    (limit : Int) : List Str → Nat → List Str → List Str → ScrapeState
  | [], consec, acc, fetched => ⟨acc, fetched, consec⟩
  | ch :: rest, consec, acc, fetched =>
    if 3 ≤ consec then ⟨acc, fetched, consec⟩
    else
      let fetch_limit := max 1 (min 200 (limit * 4))
      match fetch ch fetch_limit with
      | .error _ => scrapeAux fetch extract limit rest (consec + 1) acc (fetched ++ [ch])
      | .ok messages =>
        let kept := channel_kept extract limit messages
        scrapeAux fetch extract limit rest 0 (setInsertAll acc kept) (fetched ++ [ch])

/-- `TelegramScraper::scrape_configs` (with the fetch callback installed). -/
def scrape_configs (fetch : Str → Int → Except Unit (List Str))
    (extract : Str → List Str) (channels : List Str) (limit : Int) : ScrapeState :=
  scrapeAux fetch extract limit channels 0 [] []

-- ---------- Obfuscation (security/obfuscation.cpp) ----------

def OBF_CDN_WHITELIST_DOMAINS : List Str :=
  ["cloudflare.com", "cdn.cloudflare.com", "cloudflare-dns.com",
   "fastly.net", "fastly.com", "global.fastly.net",
   "akamai.net", "akamaiedge.net", "akamaihd.net",
   "azureedge.net", "azure.com", "microsoft.com",
   "amazonaws.com", "cloudfront.net", "awsglobalaccelerator.com",
   "googleusercontent.com", "googleapis.com", "gstatic.com",
   "workers.dev", "pages.dev", "vercel.app", "r2.dev", "arvan.run",
   "arvancdn.com"].map (·.data)

/-- `StealthObfuscationEngine` state (security/obfuscation.h); its
constructor takes the first 8 CDN whitelist domains. -/
structure StealthObfuscationEngine where
  enabled : Bool
  current_sni_index : Nat := 0
  cdn_whitelist : List Str := OBF_CDN_WHITELIST_DOMAINS.take 8

/-- `StealthObfuscationEngine::get_current_sni`. -/
def StealthObfuscationEngine.get_current_sni (e : StealthObfuscationEngine) : Str :=
  if e.cdn_whitelist = [] then "cdn.cloudflare.com".data
  else e.cdn_whitelist.getD (e.current_sni_index % e.cdn_whitelist.length) []

/-- `if (s.contains(k)) s[k] = ... ;` — rewrite one field in place when it
is present. -/
def condModify (k : Str) (f : Json → Json) (s : Json) : Json :=
  if s.containsKey k then s.modifyKey k f else s

/-- the `wsSettings` block of the SNI rewrite (obfuscation.cpp 140-144):
create `headers` when absent, then set `headers.Host`. -/
def ws_headers_rewrite (sni : Str) (ws : Json) : Json :=
  (if ws.containsKey "headers".data then ws
   else ws.setKey "headers".data (Json.obj [])).modifyKey
    "headers".data (fun h => h.setKey "Host".data (.str sni))

/-- the body of the SNI rewrite applied to the `streamSettings` object
(obfuscation.cpp 132-144). -/
def rewrite_stream_settings (sni : Str) (settings : Json) : Json :=
  condModify "wsSettings".data (ws_headers_rewrite sni)
    (condModify "grpcSettings".data (fun g => g.setKey "authority".data (.str sni))
      (condModify "tlsSettings".data (fun t => t.setKey "serverName".data (.str sni))
        settings))

/-- `StealthObfuscationEngine::apply_obfuscation_to_config` from
security/obfuscation.cpp (the `stats_` bump is not observable and not
modelled). -/
def StealthObfuscationEngine.apply_obfuscation_to_config
    (e : StealthObfuscationEngine) (outbound : Json) : Json :=
  if ¬ e.enabled ∨ ¬ outbound.containsKey "streamSettings".data then outbound
  else
    outbound.modifyKey "streamSettings".data
      (rewrite_stream_settings e.get_current_sni)

-- ---------- Load balancer (proxy/load_balancer.cpp) ----------

structure BackendInfo where
  uri : Str
  latency : Rat := 0
  healthy : Bool := true
  added_at : Int := 0

inductive EngineEvent where
  | start (handle : Int)
  | stop (handle : Int)
deriving DecidableEq

def fragment_outbound : Json := Json.obj [
  ("tag".data, .str "fragment".data),
  ("protocol".data, .str "freedom".data),
  ("settings".data, Json.obj [
    ("domainStrategy".data, .str "AsIs".data),
    ("fragment".data, Json.obj [
      ("packets".data, .str "tlshello".data),
      ("length".data, .str "10-20".data),
      ("interval".data, .str "10-20".data)])])]

def natToStr (n : Nat) : Str := Nat.toDigits 10 n

/-- `MultiProxyServer::create_balanced_config` from proxy/load_balancer.cpp. -/
def create_balanced_config (jparse : Str → Option Json)
    (obf : Option StealthObfuscationEngine) (iran_fragment_enabled : Bool)
    (port_ : Int) (backends : List BackendInfo) : Json :=
  let init : List Json := if iran_fragment_enabled then [fragment_outbound] else []
  let st := backends.foldl
    (fun (st : List Json × List Json × Nat) backend =>
      if ¬ backend.healthy then st
      else
        match UniversalParser.parse jparse backend.uri with
        | none => st
        | some parsed =>
          let tag := "proxy-".data ++ natToStr st.2.2
          let ob0 := parsed.outbound.setKey "tag".data (.str tag)
          let ob1 :=
            match obf with
            | some e => if e.enabled then e.apply_obfuscation_to_config ob0 else ob0
            | none => ob0
          let ob2 :=
            if iran_fragment_enabled then
              let ob1a := if ob1.containsKey "streamSettings".data then ob1
                          else ob1.setKey "streamSettings".data (Json.obj [])
              ob1a.modifyKey "streamSettings".data (fun ss =>
                let ss1 := if ss.containsKey "sockopt".data then ss
                           else ss.setKey "sockopt".data (Json.obj [])
                ss1.modifyKey "sockopt".data
                  (fun so => so.setKey "dialerProxy".data (.str "fragment".data)))
            else ob1
          (st.1 ++ [ob2], st.2.1 ++ [Json.str tag], st.2.2 + 1))
    (init, [], 0)
  let withDirect : List Json × List Json :=
    if st.2.1.isEmpty then
      (st.1 ++ [Json.obj [
        ("tag".data, .str "direct".data),
        ("protocol".data, .str "freedom".data),
        ("settings".data, Json.obj [("domainStrategy".data, .str "AsIs".data)])]],
       [Json.str "direct".data])
    else (st.1, st.2.1)
  let outbounds := withDirect.1 ++ [Json.obj [
    ("protocol".data, .str "blackhole".data),
    ("tag".data, .str "block".data),
    ("settings".data, Json.obj [])]]
  Json.obj [
    ("log".data, Json.obj [("loglevel".data, .str "warning".data)]),
    ("inbounds".data, .arr [Json.obj [
      ("port".data, .num port_),
      ("listen".data, .str "0.0.0.0".data),
      ("protocol".data, .str "socks".data),
      ("settings".data, Json.obj [("auth".data, .str "noauth".data), ("udp".data, .bool true)]),
      ("sniffing".data, Json.obj [
        ("enabled".data, .bool true),
        ("destOverride".data, .arr [.str "http".data, .str "tls".data, .str "quic".data]),
        ("routeOnly".data, .bool false)])]]),
    ("outbounds".data, .arr outbounds),
    ("routing".data, Json.obj [
      ("domainStrategy".data, .str "AsIs".data),
      ("balancers".data, .arr [Json.obj [
        ("tag".data, .str "balancer".data),
        ("selector".data, .arr withDirect.2),
        ("strategy".data, Json.obj [("type".data, .str "random".data)])]]),
      ("rules".data, .arr [Json.obj [
        ("type".data, .str "field".data),
        ("inboundTag".data, .arr [.str "socks".data]),
        ("balancerTag".data, .str "balancer".data)]])]),
    ("dns".data, Json.obj [
      ("servers".data, .arr [
        .str "https://cloudflare-dns.com/dns-query".data,
        .str "https://dns.google/dns-query".data,
        .str "1.1.1.1".data,
        .str "8.8.8.8".data])])]

/-- the three engine callbacks of `MultiProxyServer`.  `start_cb` receives
the config (serialisation by `dump` is external and injective, so the JSON
value itself is passed) and the listen port; the stop callback returns
nothing, so only its presence matters and the embedding records the calls
it would receive as events. -/
structure EngineCallbacks where
  start_cb : Option (Json → Int → Int)
  stop_present : Bool
  test_cb : Option (Str → Int → Int → Int × Rat)

/-- the deterministic probe port of `test_backend`; `hashf` abstracts
`std::hash<std::string>` (implementation defined), `%` is C++ truncated
remainder. -/
def probe_port (hashf : Str → Int) (port_ : Int) (uri : Str) : Int :=
  let tp := port_ + 100 + Int.tmod (toInt32 (hashf uri)) 50
  if tp < 0 then port_ + 100 else tp

def probe_config (test_port : Int) (parsed : HunterParsedConfig) : Json :=
  Json.obj [
    ("log".data, Json.obj [("loglevel".data, .str "warning".data)]),
    ("inbounds".data, .arr [Json.obj [
      ("port".data, .num test_port),
      ("listen".data, .str "127.0.0.1".data),
      ("protocol".data, .str "socks".data),
      ("settings".data, Json.obj [("auth".data, .str "noauth".data), ("udp".data, .bool false)])]]),
    ("outbounds".data, .arr [parsed.outbound])]

structure ProbeRun where
  result : Option Rat
  events : List EngineEvent

/-- `MultiProxyServer::test_backend` from proxy/load_balancer.cpp,
instrumented with the engine start/stop calls it performs. -/
def test_backend (jparse : Str → Option Json) (cbs : EngineCallbacks)
    (hashf : Str → Int) (port_ : Int) (uri : Str) (timeout : Int := 8) : ProbeRun :=
  match UniversalParser.parse jparse uri with
  | none => ⟨none, []⟩
  | some parsed =>
    let test_port := probe_port hashf port_ uri
    let config := probe_config test_port parsed
    let started : Int × List EngineEvent :=
      match cbs.start_cb with
      | some f => (f config test_port, [.start (f config test_port)])
      | none => (-1, [])
    if started.1 < 0 then ⟨none, started.2⟩
    else
      let result : Option Rat :=
        match cbs.test_cb with
        | some t =>
          let sl := t "https://cp.cloudflare.com/".data test_port timeout
          if sl.1 > 0 ∧ (sl.1 < 400 ∨ sl.1 = 204) then some sl.2 else none
        | none => none
      ⟨result, started.2 ++ (if cbs.stop_present ∧ 0 ≤ started.1 then [.stop started.1] else [])⟩

structure BalancerState where
  current_proxy_handle : Int := -1
  restarts : Nat := 0
  last_restart : Option Int := none

structure WriteStartResult where
  ok : Bool
  state : BalancerState
  events : List EngineEvent

/-- `MultiProxyServer::write_and_start` from proxy/load_balancer.cpp,
instrumented with engine start/stop calls (`now` abstracts `now_ts()`; the
1.5 s sleep is not modelled). -/
def write_and_start (jparse : Str → Option Json) (cbs : EngineCallbacks)
    (obf : Option StealthObfuscationEngine) (iran_fragment_enabled : Bool)
    (port_ : Int) (now : Int) (backends : List BackendInfo) (st : BalancerState) :
    WriteStartResult :=
  let config := create_balanced_config jparse obf iran_fragment_enabled port_ backends
  let stopped : BalancerState × List EngineEvent :=
    if 0 ≤ st.current_proxy_handle ∧ cbs.stop_present then
      ({ st with current_proxy_handle := -1 }, [.stop st.current_proxy_handle])
    else (st, [])
  match cbs.start_cb with
  | some f =>
    let h := f config port_
    if h < 0 then
      ⟨false, { stopped.1 with current_proxy_handle := h }, stopped.2 ++ [.start h]⟩
    else
      ⟨true,
       { current_proxy_handle := h, restarts := stopped.1.restarts + 1,
         last_restart := some now },
       stopped.2 ++ [.start h]⟩
  | none => ⟨false, stopped.1, stopped.2⟩

/-- the multiset of live engine handles after a list of engine events,
starting from `init`: a successful `StartProxy` (handle ≥ 0) adds its
handle, a `StopProxy` removes one copy. -/
def liveAfterFrom (init : List Int) (events : List EngineEvent) : List Int :=
  events.foldl
    (fun live e =>
      match e with
      | .start h => if 0 ≤ h then live ++ [h] else live
      | .stop h => live.erase h)
    init

-- ---------- shared concrete objects for witnesses ----------

/-- a JSON text parser that fails on every input (enough for the non-VMess
schemes, which never consult it). -/
def jpNone : Str → Option Json := fun _ => none

-- ======================================================================
-- C1
-- ======================================================================

/-- C1 counterexample: at latency exactly 2000 the code returns "silver",
not "dead" (the comparison in `tier_for_latency` is strict). -/
theorem C1_tier_2000_counterexample :
    tier_for_latency 2000 = "silver".data ∧ tier_for_latency 2000 ≠ "dead".data := by
  have h : tier_for_latency 2000 = "silver".data := by norm_num [tier_for_latency]
  exact ⟨h, by rw [h]; decide⟩

/-- C1 (amended): `tier_for_latency` returns "gold" below 200, "silver" on
[200, 800), "dead" strictly above 2000 and "silver" otherwise; in
particular 200 ↦ "silver", 800 ↦ "silver" and 2000 ↦ "silver". -/
theorem C1_tier_for_latency_cases (l : Rat) :
    (l < 200 → tier_for_latency l = "gold".data)
    ∧ (200 ≤ l → l < 800 → tier_for_latency l = "silver".data)
    ∧ (2000 < l → tier_for_latency l = "dead".data)
    ∧ (800 ≤ l → l ≤ 2000 → tier_for_latency l = "silver".data)
    ∧ tier_for_latency 200 = "silver".data
    ∧ tier_for_latency 800 = "silver".data
    ∧ tier_for_latency 2000 = "silver".data := by
  refine ⟨fun h => ?_, fun h1 h2 => ?_, fun h => ?_, fun h1 h2 => ?_, ?_, ?_, ?_⟩
  · simp only [tier_for_latency, if_pos h]
  · simp only [tier_for_latency]
    rw [if_neg (by linarith), if_pos h2]
  · simp only [tier_for_latency]
    rw [if_neg (by linarith), if_neg (by linarith), if_pos h]
  · simp only [tier_for_latency]
    rw [if_neg (by linarith), if_neg (by linarith), if_neg (by linarith)]
  · norm_num [tier_for_latency]
  · norm_num [tier_for_latency]
  · norm_num [tier_for_latency]

/-- C1 witness: the amended theorem evaluated at 100, 500, 2500 and 1000. -/
theorem C1_tier_witness :
    tier_for_latency 100 = "gold".data ∧ tier_for_latency 500 = "silver".data
    ∧ tier_for_latency 2500 = "dead".data ∧ tier_for_latency 1000 = "silver".data :=
  ⟨(C1_tier_for_latency_cases 100).1 (by norm_num),
   (C1_tier_for_latency_cases 500).2.1 (by norm_num) (by norm_num),
   (C1_tier_for_latency_cases 2500).2.2.1 (by norm_num),
   (C1_tier_for_latency_cases 1000).2.2.2.1 (by norm_num) (by norm_num)⟩

-- ======================================================================
-- C7
-- ======================================================================

/-- C7: `record_failure` increments the failure counter by one,
`should_use_cache` holds exactly when the counter is at least 2, a save
that actually appended lines resets the counter to zero, and from a reset
counter two further failures are needed before `should_use_cache` holds. -/
theorem C7_failure_counter (c : SmartCache) (now : Int) (configs : List Str)
    (working : Bool) :
    c.record_failure.consecutive_failures = c.consecutive_failures + 1
    ∧ (c.should_use_cache = true ↔ 2 ≤ c.consecutive_failures)
    ∧ (0 < (c.save_configs now configs working).1 →
        (c.save_configs now configs working).2.consecutive_failures = 0
        ∧ (c.save_configs now configs working).2.should_use_cache = false)
    ∧ (c.consecutive_failures = 0 →
        c.should_use_cache = false
        ∧ c.record_failure.should_use_cache = false
        ∧ c.record_failure.record_failure.should_use_cache = true) := by
  have hfst : (c.save_configs now configs working).1
      = (append_unique_lines (c.targetFile working) configs).1 := by
    simp only [SmartCache.save_configs]
    split <;> rfl
  refine ⟨rfl, ?_, fun h => ?_, fun h => ?_⟩
  · simp [SmartCache.should_use_cache]
  · rw [hfst] at h
    constructor
    · simp only [SmartCache.save_configs, if_pos h]
    · simp only [SmartCache.save_configs, if_pos h, SmartCache.should_use_cache]
      decide
  · refine ⟨?_, ?_, ?_⟩
    · simp [SmartCache.should_use_cache, h]
    · simp [SmartCache.should_use_cache, SmartCache.record_failure, h]
    · simp [SmartCache.should_use_cache, SmartCache.record_failure, h]

/-- C7 witness: a cache with 5 recorded failures wants the cache, and a
save that appends one line resets the counter. -/
theorem C7_failure_counter_witness :
    SmartCache.should_use_cache ⟨[], [], 0, 5⟩ = true
    ∧ (SmartCache.save_configs ⟨[], [], 0, 5⟩ 0 ["a".data] true).2.consecutive_failures = 0 :=
  ⟨(C7_failure_counter ⟨[], [], 0, 5⟩ 0 ["a".data] true).2.1.mpr (by norm_num),
   ((C7_failure_counter ⟨[], [], 0, 5⟩ 0 ["a".data] true).2.2.1 (by decide)).1⟩

-- ======================================================================
-- C5
-- ======================================================================

/-- C5: when the probe reaches the test hook (URI parses, the engine start
returned a non-negative handle, hook installed), `test_backend` returns the
measured latency exactly when `statusCode > 0 ∧ (statusCode < 400 ∨
statusCode = 204)`, and returns nothing for every other status. -/
theorem C5_probe_acceptance (jparse : Str → Option Json) (cbs : EngineCallbacks)
    (hashf : Str → Int) (port_ : Int) (uri : Str) (timeout : Int)
    (parsed : HunterParsedConfig) (f : Json → Int → Int)
    (t : Str → Int → Int → Int × Rat) (status : Int) (lat : Rat)
    (hp : UniversalParser.parse jparse uri = some parsed)
    (hs : cbs.start_cb = some f)
    (hpos : 0 ≤ f (probe_config (probe_port hashf port_ uri) parsed)
      (probe_port hashf port_ uri))
    (ht : cbs.test_cb = some t)
    (htr : t "https://cp.cloudflare.com/".data (probe_port hashf port_ uri) timeout
      = (status, lat)) :
    ((test_backend jparse cbs hashf port_ uri timeout).result = some lat
      ↔ (0 < status ∧ (status < 400 ∨ status = 204)))
    ∧ (¬ (0 < status ∧ (status < 400 ∨ status = 204)) →
        (test_backend jparse cbs hashf port_ uri timeout).result = none) := by
  have hrw : (test_backend jparse cbs hashf port_ uri timeout).result
      = if 0 < status ∧ (status < 400 ∨ status = 204) then some lat else none := by
    simp only [test_backend, hp, hs, ht]
    rw [if_neg (not_lt.mpr hpos)]
    simp only [htr, gt_iff_lt]
  rw [hrw]
  by_cases hacc : 0 < status ∧ (status < 400 ∨ status = 204)
  · simp [hacc]
  · simp [hacc]

/-- C5 witness: a 204 response with latency 5 through a stub engine is
accepted. -/
theorem C5_probe_acceptance_witness :
    (test_backend jpNone
      ⟨some (fun _ _ => 7), true, some (fun _ _ _ => (204, 5))⟩
      (fun _ => 0) 1000 "trojan://p@h:1".data 8).result = some 5 := by
  obtain ⟨parsed, hp⟩ :
      ∃ c, UniversalParser.parse jpNone "trojan://p@h:1".data = some c := ⟨_, rfl⟩
  exact (C5_probe_acceptance jpNone
    ⟨some (fun _ _ => 7), true, some (fun _ _ _ => (204, 5))⟩
    (fun _ => 0) 1000 "trojan://p@h:1".data 8 parsed
    (fun _ _ => 7) (fun _ _ _ => (204, 5)) 204 5
    hp rfl (by norm_num) rfl rfl).1.mpr (by norm_num)

-- ======================================================================
-- C9
-- ======================================================================

/-- C9: the universal parser is total in the embedding (exceptions inside
the variant parsers are `catch`-converted to the not-parseable signal,
modelled as `none`): the empty string, strings without "://", unknown
schemes and VMess payloads rejected by the JSON parser all yield `none`,
and every input yields either a config or `none`. -/
theorem C9_universal_parser_total (jparse : Str → Option Json) (uri : Str) :
    (uri = [] → UniversalParser.parse jparse uri = none)
    ∧ (findSub uri "://".data = none → UniversalParser.parse jparse uri = none)
    ∧ (∀ i, findSub uri "://".data = some i →
        toLower (uri.take i) ≠ "vmess".data → toLower (uri.take i) ≠ "vless".data →
        toLower (uri.take i) ≠ "trojan".data → toLower (uri.take i) ≠ "ss".data →
        toLower (uri.take i) ≠ "shadowsocks".data →
        UniversalParser.parse jparse uri = none)
    ∧ (∀ i, findSub uri "://".data = some i → toLower (uri.take i) = "vmess".data →
        jparse (safeB64decode (uri.drop 8)) = none →
        UniversalParser.parse jparse uri = none)
    ∧ ((∃ c, UniversalParser.parse jparse uri = some c)
        ∨ UniversalParser.parse jparse uri = none) := by
  refine ⟨fun h => ?_, fun h => ?_, fun i hi h1 h2 h3 h4 h5 => ?_, fun i hi hv hj => ?_, ?_⟩
  · simp [UniversalParser.parse, h]
  · simp [UniversalParser.parse, h]
  · have hne : uri ≠ [] := by rintro rfl; simp [findSub] at hi
    simp only [UniversalParser.parse, hi]
    rw [if_neg (by simp [hi, hne])]
    simp [h1, h2, h3, h4, h5]
  · have hne : uri ≠ [] := by rintro rfl; simp [findSub] at hi
    simp only [UniversalParser.parse, hi]
    rw [if_neg (by simp [hi, hne])]
    simp only [hv, if_true]
    unfold VMessParser.parse
    by_cases hlen : uri.length < 9
    · rw [if_pos hlen]
    · rw [if_neg hlen]
      simp only [hj]
  · cases h : UniversalParser.parse jparse uri with
    | none => exact Or.inr rfl
    | some c => exact Or.inl ⟨c, rfl⟩

/-- C9 witness: the theorem evaluated on the empty string, a plain word, an
unknown scheme and a VMess URI whose payload the JSON parser rejects. -/
theorem C9_universal_parser_total_witness :
    UniversalParser.parse jpNone [] = none
    ∧ UniversalParser.parse jpNone "hello".data = none
    ∧ UniversalParser.parse jpNone "http://x".data = none
    ∧ UniversalParser.parse jpNone "vmess://AAAA".data = none :=
  ⟨(C9_universal_parser_total jpNone []).1 rfl,
   (C9_universal_parser_total jpNone "hello".data).2.1 (by decide),
   (C9_universal_parser_total jpNone "http://x".data).2.2.1 4 (by decide)
     (by decide) (by decide) (by decide) (by decide) (by decide),
   (C9_universal_parser_total jpNone "vmess://AAAA".data).2.2.2.1 5 (by decide)
     (by decide) rfl⟩

-- ======================================================================
-- C2
-- ======================================================================

theorem vmess_finish_fields (j : Json) (uri host : Str) (port : Int) (uuid ps : Str)
    (ob : Json) (c : HunterParsedConfig)
    (h : VMessParser.finish j uri host port uuid ps ob = some c) :
    c.host = host ∧ c.port = port ∧ c.identity = uuid := by
  unfold VMessParser.finish at h
  split at h
  · cases h
  · split at h
    · split at h
      · cases h
      · injection h with h
        subst h
        exact ⟨rfl, rfl, rfl⟩
    · injection h with h
      subst h
      exact ⟨rfl, rfl, rfl⟩

theorem vmess_wsStep_fields (j : Json) (uri host : Str) (port : Int) (uuid ps : Str)
    (ob : Json) (c : HunterParsedConfig)
    (h : VMessParser.wsStep j uri host port uuid ps ob = some c) :
    c.host = host ∧ c.port = port ∧ c.identity = uuid := by
  unfold VMessParser.wsStep at h
  split at h
  · cases h
  · split at h
    · split at h
      · exact vmess_finish_fields _ _ _ _ _ _ _ _ h
      · cases h
    · exact vmess_finish_fields _ _ _ _ _ _ _ _ h

theorem vmess_invariant (jparse : Str → Option Json) (uri : Str)
    (c : HunterParsedConfig) (h : VMessParser.parse jparse uri = some c) :
    c.host ≠ [] ∧ c.host ≠ "0.0.0.0".data ∧ c.port ≠ 0 ∧ c.identity ≠ [] := by
  simp only [VMessParser.parse] at h
  split at h
  · cases h
  · split at h
    · cases h
    · split at h
      · split at h
        · cases h
        · rename_i hguard
          push_neg at hguard
          split at h
          · have hf := vmess_wsStep_fields _ _ _ _ _ _ _ _ h
            refine ⟨?_, ?_, ?_, ?_⟩
            · rw [hf.1]; exact hguard.1
            · rw [hf.1]; exact hguard.2.2.2
            · rw [hf.2.1]; exact hguard.2.1
            · rw [hf.2.2]; exact hguard.2.2.1
          · cases h
      · cases h

theorem vless_invariant (uri : Str) (c : HunterParsedConfig)
    (h : VLESSParser.parse uri = some c) :
    c.host ≠ [] ∧ c.host ≠ "0.0.0.0".data ∧ c.port ≠ 0 ∧ c.identity ≠ [] := by
  simp only [VLESSParser.parse] at h
  split at h
  · cases h
  · rename_i hguard
    push_neg at hguard
    injection h with h
    subst h
    refine ⟨hguard.1, hguard.2.2, ?_, hguard.2.1⟩
    dsimp only
    split
    · omega
    · decide

theorem trojan_invariant (uri : Str) (c : HunterParsedConfig)
    (h : TrojanParser.parse uri = some c) :
    c.host ≠ [] ∧ c.host ≠ "0.0.0.0".data ∧ c.port ≠ 0 ∧ c.identity ≠ [] := by
  simp only [TrojanParser.parse] at h
  split at h
  · cases h
  · rename_i hguard
    push_neg at hguard
    injection h with h
    subst h
    refine ⟨hguard.1, hguard.2.2, ?_, hguard.2.1⟩
    dsimp only
    split
    · omega
    · decide

theorem ss_fromCore_invariant (uri ps core : Str) (c : HunterParsedConfig)
    (h : ShadowsocksParser.fromCore uri ps core = some c) :
    c.host ≠ [] ∧ c.host ≠ "0.0.0.0".data ∧ c.port ≠ 0 ∧ c.identity ≠ [] := by
  simp only [ShadowsocksParser.fromCore] at h
  split at h
  · cases h
  · split at h
    · cases h
    · split at h
      · cases h
      · split at h
        · cases h
        · split at h
          · cases h
          · split at h
            · cases h
            · rename_i hguard
              push_neg at hguard
              injection h with h
              subst h
              exact ⟨hguard.1, hguard.2.2, hguard.2.1, by simp⟩

theorem ss_invariant (uri : Str) (c : HunterParsedConfig)
    (h : ShadowsocksParser.parse uri = some c) :
    c.host ≠ [] ∧ c.host ≠ "0.0.0.0".data ∧ c.port ≠ 0 ∧ c.identity ≠ [] := by
  simp only [ShadowsocksParser.parse] at h
  split at h
  · cases h
  · exact ss_fromCore_invariant _ _ _ _ h

/-- C2 (amended): every config produced by any variant of the universal
parser has a non-empty host different from 0.0.0.0, a non-zero port and a
non-empty identity (the code never checks an upper bound 65535, so the
claimed range [1, 65535] does not hold). -/
theorem C2_parsed_config_invariant (jparse : Str → Option Json) (uri : Str)
    (c : HunterParsedConfig) (h : UniversalParser.parse jparse uri = some c) :
    c.host ≠ [] ∧ c.host ≠ "0.0.0.0".data ∧ c.port ≠ 0 ∧ c.identity ≠ [] := by
  simp only [UniversalParser.parse] at h
  split at h
  · cases h
  · split at h
    · cases h
    · split at h
      · exact vmess_invariant _ _ _ h
      · split at h
        · exact vless_invariant _ _ h
        · split at h
          · exact trojan_invariant _ _ h
          · split at h
            · exact ss_invariant _ _ h
            · cases h

/-- C2 counterexample: `vless://u@h:70000` parses successfully with port
70000, outside the claimed range [1, 65535]. -/
theorem C2_port_range_counterexample :
    (UniversalParser.parse jpNone "vless://u@h:70000".data).map
      (fun c => c.port) = some 70000
    ∧ ¬ (70000 : Int) ≤ 65535 := by
  exact ⟨rfl, by norm_num⟩

/-- C2 witness: the amended invariant evaluated on `trojan://p@h:1`. -/
theorem C2_parsed_config_invariant_witness :
    (UniversalParser.parse jpNone "trojan://p@h:1".data).map (fun c => c.host) ≠ some []
    ∧ (UniversalParser.parse jpNone "trojan://p@h:1".data).map (fun c => c.host)
        ≠ some "0.0.0.0".data
    ∧ (UniversalParser.parse jpNone "trojan://p@h:1".data).map (fun c => c.port) ≠ some 0
    ∧ (UniversalParser.parse jpNone "trojan://p@h:1".data).map (fun c => c.identity)
        ≠ some [] := by
  obtain ⟨c, hc⟩ :
      ∃ c, UniversalParser.parse jpNone "trojan://p@h:1".data = some c := ⟨_, rfl⟩
  have h := C2_parsed_config_invariant jpNone "trojan://p@h:1".data c hc
  rw [hc]
  simp only [Option.map_some', ne_eq, Option.some.injEq]
  exact ⟨h.1, h.2.1, h.2.2.1, h.2.2.2⟩

-- ======================================================================
-- C6
-- ======================================================================

def hash0 : Str → Int := fun _ => 0

def cbsW : EngineCallbacks := ⟨some (fun _ _ => 7), true, some (fun _ _ _ => (204, 5))⟩

theorem probe_events_spec (jparse : Str → Option Json) (cbs : EngineCallbacks)
    (hashf : Str → Int) (port_ : Int) (uri : Str) (timeout : Int)
    (hstop : cbs.stop_present = true) :
    liveAfterFrom [] (test_backend jparse cbs hashf port_ uri timeout).events = []
    ∧ (∀ n, (liveAfterFrom []
        ((test_backend jparse cbs hashf port_ uri timeout).events.take n)).length ≤ 1)
    ∧ (∀ h, 0 ≤ h →
        EngineEvent.start h ∈ (test_backend jparse cbs hashf port_ uri timeout).events →
        (test_backend jparse cbs hashf port_ uri timeout).events.count
          (EngineEvent.stop h) = 1) := by
  rcases hp : UniversalParser.parse jparse uri with _ | parsed
  · have he : (test_backend jparse cbs hashf port_ uri timeout).events = [] := by
      simp [test_backend, hp]
    rw [he]
    exact ⟨rfl, fun n => by simp [liveAfterFrom], fun h _ hm => by simp at hm⟩
  · rcases hsc : cbs.start_cb with _ | f
    · have he : (test_backend jparse cbs hashf port_ uri timeout).events = [] := by
        simp [test_backend, hp, hsc]
      rw [he]
      exact ⟨rfl, fun n => by simp [liveAfterFrom], fun h _ hm => by simp at hm⟩
    · set hdl := f (probe_config (probe_port hashf port_ uri) parsed)
        (probe_port hashf port_ uri) with hh
      by_cases hneg : hdl < 0
      · have he : (test_backend jparse cbs hashf port_ uri timeout).events
            = [EngineEvent.start hdl] := by
          simp [test_backend, hp, hsc, if_pos hneg]
        have hnn : ¬ (0 ≤ hdl) := not_le.mpr hneg
        rw [he]
        refine ⟨by simp [liveAfterFrom, hnn], fun n => ?_, fun h h0 hm => ?_⟩
        · match n with
          | 0 => simp [liveAfterFrom]
          | n + 1 => simp [liveAfterFrom, hnn, List.take_succ_cons]
        · simp only [List.mem_singleton, EngineEvent.start.injEq] at hm
          subst hm
          exact absurd h0 hnn
      · have hpos : 0 ≤ hdl := not_lt.mp hneg
        have he : (test_backend jparse cbs hashf port_ uri timeout).events
            = [EngineEvent.start hdl, EngineEvent.stop hdl] := by
          simp [test_backend, hp, hsc, if_neg hneg, hstop, hpos]
        rw [he]
        refine ⟨by simp [liveAfterFrom, hpos], fun n => ?_, fun h h0 hm => ?_⟩
        · match n with
          | 0 => simp [liveAfterFrom]
          | 1 => simp [liveAfterFrom, hpos, List.take_succ_cons]
          | n + 2 => simp [liveAfterFrom, hpos, List.take_succ_cons]
        · simp only [List.mem_cons, List.mem_singleton, EngineEvent.start.injEq,
            reduceCtorEq, List.not_mem_nil, or_false, false_or] at hm
          subst hm
          simp [List.count_cons]

theorem rebuild_events_spec (jparse : Str → Option Json) (cbs : EngineCallbacks)
    (obf : Option StealthObfuscationEngine) (ifrag : Bool) (port_ now : Int)
    (backends : List BackendInfo) (st : BalancerState)
    (hstop : cbs.stop_present = true) :
    (0 ≤ st.current_proxy_handle →
      (write_and_start jparse cbs obf ifrag port_ now backends st).events.head?
        = some (.stop st.current_proxy_handle))
    ∧ (∀ n, (liveAfterFrom
        (if 0 ≤ st.current_proxy_handle then [st.current_proxy_handle] else [])
        ((write_and_start jparse cbs obf ifrag port_ now backends st).events.take n)).length
          ≤ 1)
    ∧ liveAfterFrom
        (if 0 ≤ st.current_proxy_handle then [st.current_proxy_handle] else [])
        (write_and_start jparse cbs obf ifrag port_ now backends st).events
      = (if 0 ≤ (write_and_start jparse cbs obf ifrag port_ now backends st).state.current_proxy_handle
         then [(write_and_start jparse cbs obf ifrag port_ now backends st).state.current_proxy_handle]
         else []) := by
  set h0 := st.current_proxy_handle with hh0
  by_cases hpr : 0 ≤ h0
  · rcases hsc : cbs.start_cb with _ | f
    · have he : write_and_start jparse cbs obf ifrag port_ now backends st
          = ⟨false, { st with current_proxy_handle := -1 }, [.stop h0]⟩ := by
        simp [write_and_start, hsc, hpr, hstop]
      rw [he]
      refine ⟨fun _ => rfl, fun n => ?_, ?_⟩
      · match n with
        | 0 => simp [liveAfterFrom, hpr]
        | n + 1 => simp [liveAfterFrom, hpr, List.take_succ_cons]
      · simp [liveAfterFrom, hpr]
    · set hn := f (create_balanced_config jparse obf ifrag port_ backends) port_ with hhn
      by_cases hneg : hn < 0
      · have he : write_and_start jparse cbs obf ifrag port_ now backends st
            = ⟨false, { st with current_proxy_handle := hn },
               [.stop h0, .start hn]⟩ := by
          simp [write_and_start, hsc, hpr, hstop, if_pos hneg]
        have hnn : ¬ (0 ≤ hn) := not_le.mpr hneg
        rw [he]
        refine ⟨fun _ => rfl, fun n => ?_, ?_⟩
        · match n with
          | 0 => simp [liveAfterFrom, hpr]
          | 1 => simp [liveAfterFrom, hpr, List.take_succ_cons]
          | n + 2 => simp [liveAfterFrom, hpr, hnn, List.take_succ_cons]
        · simp [liveAfterFrom, hpr, hnn]
      · have hpos : 0 ≤ hn := not_lt.mp hneg
        have he : write_and_start jparse cbs obf ifrag port_ now backends st
            = ⟨true, ⟨hn, st.restarts + 1, some now⟩, [.stop h0, .start hn]⟩ := by
          simp [write_and_start, hsc, hpr, hstop, if_neg hneg]
        rw [he]
        refine ⟨fun _ => rfl, fun n => ?_, ?_⟩
        · match n with
          | 0 => simp [liveAfterFrom, hpr]
          | 1 => simp [liveAfterFrom, hpr, List.take_succ_cons]
          | n + 2 => simp [liveAfterFrom, hpr, hpos, List.take_succ_cons]
        · simp [liveAfterFrom, hpr, hpos]
  · rcases hsc : cbs.start_cb with _ | f
    · have he : write_and_start jparse cbs obf ifrag port_ now backends st
          = ⟨false, st, []⟩ := by
        simp [write_and_start, hsc, hpr]
      rw [he]
      refine ⟨fun hp => absurd hp hpr, fun n => ?_, ?_⟩
      · simp [liveAfterFrom, hpr]
      · simp [liveAfterFrom, hpr, hh0]
    · set hn := f (create_balanced_config jparse obf ifrag port_ backends) port_ with hhn
      by_cases hneg : hn < 0
      · have he : write_and_start jparse cbs obf ifrag port_ now backends st
            = ⟨false, { st with current_proxy_handle := hn }, [.start hn]⟩ := by
          simp [write_and_start, hsc, hpr, if_pos hneg]
        have hnn : ¬ (0 ≤ hn) := not_le.mpr hneg
        rw [he]
        refine ⟨fun hp => absurd hp hpr, fun n => ?_, ?_⟩
        · match n with
          | 0 => simp [liveAfterFrom, hpr]
          | n + 1 => simp [liveAfterFrom, hpr, hnn, List.take_succ_cons]
        · simp [liveAfterFrom, hpr, hnn]
      · have hpos : 0 ≤ hn := not_lt.mp hneg
        have he : write_and_start jparse cbs obf ifrag port_ now backends st
            = ⟨true, ⟨hn, st.restarts + 1, some now⟩, [.start hn]⟩ := by
          simp [write_and_start, hsc, hpr, if_neg hneg]
        rw [he]
        refine ⟨fun hp => absurd hp hpr, fun n => ?_, ?_⟩
        · match n with
          | 0 => simp [liveAfterFrom, hpr]
          | n + 1 => simp [liveAfterFrom, hpr, hpos, List.take_succ_cons]
        · simp [liveAfterFrom, hpr, hpos]

/-- C6: on every path of a backend probe every successful `StartProxy`
(handle ≥ 0) is matched by exactly one `StopProxy` before the probe
returns, and the probe's trace never holds more than one live handle; on
every path of `write_and_start` the previously held live handle is stopped
first, at most one handle is live at any prefix of the trace, and the
final live handle is exactly the one recorded in the balancer state
(callbacks installed: the stop hook is present). -/
theorem C6_engine_handle_discipline (jparse : Str → Option Json)
    (cbs : EngineCallbacks) (hashf : Str → Int)
    (obf : Option StealthObfuscationEngine) (ifrag : Bool) (port_ now : Int)
    (uri : Str) (timeout : Int) (backends : List BackendInfo)
    (st : BalancerState) (hstop : cbs.stop_present = true) :
    (liveAfterFrom [] (test_backend jparse cbs hashf port_ uri timeout).events = []
     ∧ (∀ n, (liveAfterFrom []
         ((test_backend jparse cbs hashf port_ uri timeout).events.take n)).length ≤ 1)
     ∧ (∀ h, 0 ≤ h →
         EngineEvent.start h ∈ (test_backend jparse cbs hashf port_ uri timeout).events →
         (test_backend jparse cbs hashf port_ uri timeout).events.count
           (EngineEvent.stop h) = 1))
    ∧
    ((0 ≤ st.current_proxy_handle →
       (write_and_start jparse cbs obf ifrag port_ now backends st).events.head?
         = some (.stop st.current_proxy_handle))
     ∧ (∀ n, (liveAfterFrom
         (if 0 ≤ st.current_proxy_handle then [st.current_proxy_handle] else [])
         ((write_and_start jparse cbs obf ifrag port_ now backends st).events.take n)).length
           ≤ 1)
     ∧ liveAfterFrom
         (if 0 ≤ st.current_proxy_handle then [st.current_proxy_handle] else [])
         (write_and_start jparse cbs obf ifrag port_ now backends st).events
       = (if 0 ≤ (write_and_start jparse cbs obf ifrag port_ now backends st).state.current_proxy_handle
          then [(write_and_start jparse cbs obf ifrag port_ now backends st).state.current_proxy_handle]
          else [])) :=
  ⟨probe_events_spec jparse cbs hashf port_ uri timeout hstop,
   rebuild_events_spec jparse cbs obf ifrag port_ now backends st hstop⟩

/-- C6 witness: a probe through stub callbacks leaves no live handle, and a
rebuild that holds handle 3 stops it first. -/
theorem C6_engine_handle_discipline_witness :
    liveAfterFrom [] (test_backend jpNone cbsW hash0 1000 "trojan://p@h:1".data 8).events = []
    ∧ (write_and_start jpNone cbsW none false 1000 0 [] ⟨3, 0, none⟩).events.head?
        = some (EngineEvent.stop 3) := by
  have h := C6_engine_handle_discipline jpNone cbsW hash0 none false 1000 0
    "trojan://p@h:1".data 8 [] ⟨3, 0, none⟩ rfl
  exact ⟨h.1.1, h.2.1 (by norm_num)⟩

-- ======================================================================
-- C8
-- ======================================================================

theorem firstSeen_cons (a : Str) (l : List Str) :
    firstSeen (a :: l) = a :: firstSeen (l.filter (fun b => b ≠ a)) := by
  rw [firstSeen]

theorem scrapeAux_stop (fetch : Str → Int → Except Unit (List Str))
    (extract : Str → List Str) (limit : Int) (chans : List Str) (consec : Nat)
    (acc fet : List Str) (h : 3 ≤ consec) :
    scrapeAux fetch extract limit chans consec acc fet = ⟨acc, fet, consec⟩ := by
  cases chans with
  | nil => rfl
  | cons ch rest => simp [scrapeAux, h]

theorem scrapeAux_cons (fetch : Str → Int → Except Unit (List Str))
    (extract : Str → List Str) (limit : Int) (ch : Str) (rest : List Str)
    (consec : Nat) (acc fet : List Str) :
    scrapeAux fetch extract limit (ch :: rest) consec acc fet
      = if 3 ≤ consec then ⟨acc, fet, consec⟩
        else
          match fetch ch (max 1 (min 200 (limit * 4))) with
          | .error _ => scrapeAux fetch extract limit rest (consec + 1) acc (fet ++ [ch])
          | .ok messages =>
            scrapeAux fetch extract limit rest 0
              (setInsertAll acc (channel_kept extract limit messages)) (fet ++ [ch]) := rfl

theorem scrapeAux_append (fetch : Str → Int → Except Unit (List Str))
    (extract : Str → List Str) (limit : Int) (cs : List Str) : ∀ (ds : List Str)
    (consec : Nat) (acc fet : List Str),
    scrapeAux fetch extract limit (cs ++ ds) consec acc fet
      = (if 3 ≤ (scrapeAux fetch extract limit cs consec acc fet).consec
         then scrapeAux fetch extract limit cs consec acc fet
         else scrapeAux fetch extract limit ds
                (scrapeAux fetch extract limit cs consec acc fet).consec
                (scrapeAux fetch extract limit cs consec acc fet).configs
                (scrapeAux fetch extract limit cs consec acc fet).fetched) := by
  induction cs with
  | nil =>
    intro ds consec acc fet
    by_cases h3 : 3 ≤ consec
    · simp only [List.nil_append, scrapeAux, h3, if_pos h3]
      exact scrapeAux_stop _ _ _ _ _ _ _ h3
    · rw [List.nil_append]
      exact (if_neg h3).symm
  | cons ch cs ih =>
    intro ds consec acc fet
    by_cases h3 : 3 ≤ consec
    · rw [List.cons_append, scrapeAux_cons, if_pos h3, scrapeAux_cons, if_pos h3]
      simp only [if_pos h3]
    · rw [List.cons_append, scrapeAux_cons, if_neg h3, scrapeAux_cons, if_neg h3]
      cases hf : fetch ch (max 1 (min 200 (limit * 4))) with
      | error e => exact ih ds (consec + 1) acc (fet ++ [ch])
      | ok messages =>
        exact ih ds 0 (setInsertAll acc (channel_kept extract limit messages)) (fet ++ [ch])

/-- one step of the inner URI loop of `scrape_configs`. -/
def keptStep (limit : Int) (a : List Str) (u : Str) : List Str :=
  if (a.length : Int) ≥ limit then a else if u ∈ a then a else a ++ [u]

theorem foldl_keptStep_stable (limit : Int) (us : List Str) : ∀ acc : List Str,
    (acc.length : Int) ≥ limit → us.foldl (keptStep limit) acc = acc := by
  induction us with
  | nil => intro acc _; rfl
  | cons u us ih =>
    intro acc h
    rw [List.foldl_cons]
    have hs : keptStep limit acc u = acc := by simp [keptStep, h]
    rw [hs]
    exact ih acc h

theorem keptLoop_eq_foldl (limit : Int) (us : List Str) : ∀ acc : List Str,
    keptLoop limit acc us = us.foldl (keptStep limit) acc := by
  induction us with
  | nil => intro acc; rfl
  | cons u us ih =>
    intro acc
    by_cases hcap : (acc.length : Int) ≥ limit
    · rw [List.foldl_cons]
      have hs : keptStep limit acc u = acc := by simp [keptStep, hcap]
      rw [hs, foldl_keptStep_stable limit us acc hcap]
      simp [keptLoop, hcap]
    · by_cases hm : u ∈ acc
      · rw [List.foldl_cons]
        have hs : keptStep limit acc u = acc := by simp [keptStep, hcap, hm]
        rw [hs, ← ih acc]
        simp [keptLoop, hcap, hm]
      · rw [List.foldl_cons]
        have hs : keptStep limit acc u = acc ++ [u] := by simp [keptStep, hcap, hm]
        rw [hs, ← ih (acc ++ [u])]
        simp [keptLoop, hcap, hm]

theorem keptLoop_take_firstSeen (limit : Int) (us : List Str) : ∀ acc : List Str,
    keptLoop limit acc us
      = acc ++ (firstSeen (us.filter (fun u => u ∉ acc))).take (limit.toNat - acc.length) := by
  induction us with
  | nil => intro acc; simp [keptLoop, firstSeen]
  | cons u us ih =>
    intro acc
    by_cases hcap : (acc.length : Int) ≥ limit
    · have h0 : limit.toNat - acc.length = 0 := by omega
      simp [keptLoop, hcap, h0]
    · by_cases hm : u ∈ acc
      · have hstep : keptLoop limit acc (u :: us) = keptLoop limit acc us := by
          simp [keptLoop, hcap, hm]
        rw [hstep, ih, List.filter_cons_of_neg (by simp [hm])]
      · have hstep : keptLoop limit acc (u :: us) = keptLoop limit (acc ++ [u]) us := by
          simp [keptLoop, hcap, hm]
        rw [hstep, ih, List.filter_cons_of_pos (by simp [hm]), firstSeen_cons]
        obtain ⟨k, hk⟩ : ∃ k, limit.toNat - acc.length = k + 1 :=
          ⟨limit.toNat - acc.length - 1, by omega⟩
        rw [hk, List.take_succ_cons]
        have hfil : (us.filter (fun v => v ∉ acc)).filter (fun v => v ≠ u)
            = us.filter (fun v => v ∉ acc ++ [u]) := by
          rw [List.filter_filter]
          refine List.filter_congr (fun v _ => ?_)
          simp [List.mem_append, and_comm]
        have hlen : limit.toNat - (acc ++ [u]).length = k := by
          simp only [List.length_append, List.length_singleton]
          omega
        rw [hfil, hlen]
        simp

theorem channel_kept_take_firstSeen (extract : Str → List Str) (limit : Int)
    (messages : List Str) :
    channel_kept extract limit messages
      = (firstSeen (messages.flatMap extract)).take limit.toNat := by
  have h1 : channel_kept extract limit messages
      = (messages.flatMap extract).foldl (keptStep limit) [] := by
    unfold channel_kept
    have : ∀ (ms : List Str) (acc : List Str),
        ms.foldl (fun acc msg =>
          if (acc.length : Int) ≥ limit then acc else keptLoop limit acc (extract msg)) acc
        = (ms.flatMap extract).foldl (keptStep limit) acc := by
      intro ms
      induction ms with
      | nil => intro acc; rfl
      | cons m ms ih =>
        intro acc
        rw [List.foldl_cons, List.flatMap_cons, List.foldl_append]
        by_cases hcap : (acc.length : Int) ≥ limit
        · rw [if_pos hcap, foldl_keptStep_stable limit (extract m) acc hcap]
          exact ih acc
        · rw [if_neg hcap, keptLoop_eq_foldl]
          exact ih _
    exact this messages []
  rw [h1, ← keptLoop_eq_foldl, keptLoop_take_firstSeen]
  simp

/-- C8: the channel scraper stops fetching once 3 consecutive channel
errors accumulated (channels after such a prefix are never fetched), an
erroring channel increments the consecutive count, a successful channel
resets it, and within one channel the kept URIs are the first `limit`
URIs of the extraction stream in first-seen order (so at most `limit`). -/
theorem C8_scraper_behaviour (fetch : Str → Int → Except Unit (List Str))
    (extract : Str → List Str) (limit : Int) :
    (∀ chans : List Str, scrape_configs fetch extract chans limit
        = scrapeAux fetch extract limit chans 0 [] [])
    ∧ (∀ cs ds : List Str, ∀ consec : Nat, ∀ acc fet : List Str,
        3 ≤ (scrapeAux fetch extract limit cs consec acc fet).consec →
        (scrapeAux fetch extract limit (cs ++ ds) consec acc fet).fetched
          = (scrapeAux fetch extract limit cs consec acc fet).fetched)
    ∧ (∀ ch : Str, ∀ rest : List Str, ∀ consec : Nat, ∀ acc fet : List Str,
        consec < 3 →
        fetch ch (max 1 (min 200 (limit * 4))) = .error () →
        scrapeAux fetch extract limit (ch :: rest) consec acc fet
          = scrapeAux fetch extract limit rest (consec + 1) acc (fet ++ [ch]))
    ∧ (∀ ch : Str, ∀ rest : List Str, ∀ consec : Nat, ∀ acc fet : List Str,
        ∀ msgs : List Str, consec < 3 →
        fetch ch (max 1 (min 200 (limit * 4))) = .ok msgs →
        scrapeAux fetch extract limit (ch :: rest) consec acc fet
          = scrapeAux fetch extract limit rest 0
              (setInsertAll acc (channel_kept extract limit msgs)) (fet ++ [ch]))
    ∧ (∀ msgs : List Str,
        channel_kept extract limit msgs = (firstSeen (msgs.flatMap extract)).take limit.toNat
        ∧ (channel_kept extract limit msgs).length ≤ limit.toNat) := by
  refine ⟨fun chans => rfl, fun cs ds consec acc fet h3 => ?_,
    fun ch rest consec acc fet hlt hf => ?_,
    fun ch rest consec acc fet msgs hlt hf => ?_, fun msgs => ?_⟩
  · rw [scrapeAux_append, if_pos h3]
  · rw [scrapeAux_cons, if_neg (by omega), hf]
  · rw [scrapeAux_cons, if_neg (by omega), hf]
  · refine ⟨channel_kept_take_firstSeen extract limit msgs, ?_⟩
    rw [channel_kept_take_firstSeen extract limit msgs]
    exact List.length_take_le _ _

/-- C8 witness: with every channel erroring, only the first three channels
of `[a, b, c, d]` are ever fetched. -/
theorem C8_scraper_behaviour_witness :
    (scrapeAux (fun _ _ => Except.error ()) (fun _ => []) 10
      (["a".data, "b".data, "c".data] ++ ["d".data]) 0 [] []).fetched
      = (scrapeAux (fun _ _ => Except.error ()) (fun _ => []) 10
          ["a".data, "b".data, "c".data] 0 [] []).fetched :=
  (C8_scraper_behaviour (fun _ _ => Except.error ()) (fun _ => []) 10).2.1
    ["a".data, "b".data, "c".data] ["d".data] 0 [] [] (by decide)

-- ======================================================================
-- C4
-- ======================================================================

theorem mem_firstSeen (a : Str) (l : List Str) : a ∈ firstSeen l ↔ a ∈ l := by
  induction l using firstSeen.induct with
  | case1 => simp [firstSeen]
  | case2 b t ih =>
    rw [firstSeen_cons]
    simp only [List.mem_cons]
    rw [ih]
    constructor
    · rintro (rfl | hm)
      · exact Or.inl rfl
      · exact Or.inr (List.mem_of_mem_filter hm)
    · rintro (rfl | hm)
      · exact Or.inl rfl
      · by_cases hab : a = b
        · exact Or.inl hab
        · exact Or.inr (List.mem_filter.mpr ⟨hm, by simp [hab]⟩)

theorem nodup_firstSeen (l : List Str) : (firstSeen l).Nodup := by
  induction l using firstSeen.induct with
  | case1 => simp [firstSeen]
  | case2 b t ih =>
    rw [firstSeen_cons]
    refine List.nodup_cons.mpr ⟨fun hm => ?_, ih⟩
    have := List.mem_filter.mp ((mem_firstSeen _ _).mp hm)
    simp at this

theorem collectNew_eq (lines : List Str) : ∀ existing : List Str,
    collectNew existing lines
      = firstSeen (lines.filter (fun l => l ≠ [] ∧ l ∉ existing)) := by
  induction lines with
  | nil => intro existing; simp [collectNew, firstSeen]
  | cons l rest ih =>
    intro existing
    by_cases hl : l ≠ [] ∧ l ∉ existing
    · rw [show collectNew existing (l :: rest) = l :: collectNew (l :: existing) rest by
        simp [collectNew, hl.1, hl.2], ih,
        List.filter_cons_of_pos (by simp [hl.1, hl.2]), firstSeen_cons]
      congr 1
      rw [List.filter_filter]
      refine congrArg firstSeen (List.filter_congr (fun v _ => ?_)).symm
      by_cases hv0 : v = []
      · simp [hv0]
      · by_cases hve : v ∈ existing
        · simp [hv0, hve]
        · by_cases hvl : v = l
          · simp [hv0, hve, hvl]
          · simp [hv0, hve, hvl]
    · rw [show collectNew existing (l :: rest) = collectNew existing rest by
        rcases not_and_or.mp hl with h | h
        · simp [collectNew, not_not.mp (by simpa using h)]
        · simp [collectNew, h], ih,
        List.filter_cons_of_neg (by simpa using hl)]

theorem collectNew_nil (lines : List Str) (existing : List Str)
    (h : ∀ u ∈ lines, u = [] ∨ u ∈ existing) : collectNew existing lines = [] := by
  induction lines with
  | nil => rfl
  | cons l rest ih =>
    have hl : ¬ (l ≠ [] ∧ l ∉ existing) := by
      rcases h l (List.mem_cons_self _ _) with h0 | h0 <;> simp [h0]
    simp only [collectNew, if_neg hl]
    exact ih (fun u hu => h u (List.mem_cons_of_mem _ hu))

theorem read_lines_id (file : List Str) (h : ∀ l ∈ file, trim l = l ∧ l ≠ []) :
    read_lines file = file := by
  unfold read_lines
  rw [List.map_congr_left (fun l hl => (h l hl).1)]
  have hm : List.map (fun l => l) file = file := List.map_id' file
  rw [hm]
  exact List.filter_eq_self.mpr (fun l hl => by simpa using (h l hl).2)

theorem save_configs_components (c : SmartCache) (now : Int) (uris : List Str) (w : Bool) :
    ((c.save_configs now uris w).2).targetFile w
      = (append_unique_lines (c.targetFile w) uris).2
    ∧ (c.save_configs now uris w).1 = (append_unique_lines (c.targetFile w) uris).1 := by
  cases w <;>
    simp only [SmartCache.save_configs, SmartCache.targetFile, Bool.false_eq_true,
      if_false, if_true] <;>
    constructor <;> split <;> rfl

/-- C4 (amended): for input URIs and a prior file whose lines are
whitespace-free URIs, non-empty and pairwise distinct (which every file
written by `Save` alone is), `Save` appends exactly the non-empty input
URIs not already present (first occurrence only), returns their number,
leaves the file containing every input URI with no duplicate lines, and an
immediate second `Save` of the same list returns 0 and leaves the file
unchanged. -/
theorem C4_save_append_dedup (c : SmartCache) (now now2 : Int) (uris : List Str)
    (w : Bool)
    (hfile : ∀ l ∈ c.targetFile w, trim l = l ∧ l ≠ [])
    (hnd : (c.targetFile w).Nodup)
    (huris : ∀ u ∈ uris, trim u = u) :
    ((c.save_configs now uris w).2).targetFile w
      = c.targetFile w
        ++ firstSeen (uris.filter (fun u => u ≠ [] ∧ u ∉ c.targetFile w))
    ∧ (c.save_configs now uris w).1
      = (firstSeen (uris.filter (fun u => u ≠ [] ∧ u ∉ c.targetFile w))).length
    ∧ (∀ u ∈ uris, u ≠ [] → u ∈ ((c.save_configs now uris w).2).targetFile w)
    ∧ (((c.save_configs now uris w).2).targetFile w).Nodup
    ∧ (((c.save_configs now uris w).2).save_configs now2 uris w).1 = 0
    ∧ ((((c.save_configs now uris w).2).save_configs now2 uris w).2).targetFile w
      = ((c.save_configs now uris w).2).targetFile w := by
  have hrl : read_lines (c.targetFile w) = c.targetFile w := read_lines_id _ hfile
  have hnew : collectNew (read_lines (c.targetFile w)) uris
      = firstSeen (uris.filter (fun u => u ≠ [] ∧ u ∉ c.targetFile w)) := by
    rw [hrl, collectNew_eq]
  have heq : append_unique_lines (c.targetFile w) uris
      = ((firstSeen (uris.filter (fun u => u ≠ [] ∧ u ∉ c.targetFile w))).length,
         if firstSeen (uris.filter (fun u => u ≠ [] ∧ u ∉ c.targetFile w)) = []
         then c.targetFile w
         else c.targetFile w
           ++ firstSeen (uris.filter (fun u => u ≠ [] ∧ u ∉ c.targetFile w))) := by
    unfold append_unique_lines
    rw [hnew]
  have happ2 : (append_unique_lines (c.targetFile w) uris).2
      = c.targetFile w
        ++ firstSeen (uris.filter (fun u => u ≠ [] ∧ u ∉ c.targetFile w)) := by
    rw [heq]
    dsimp only
    split
    · rename_i hemp
      rw [hemp, List.append_nil]
    · rfl
  have happ1 : (append_unique_lines (c.targetFile w) uris).1
      = (firstSeen (uris.filter (fun u => u ≠ [] ∧ u ∉ c.targetFile w))).length := by
    rw [heq]
  have h1 : ((c.save_configs now uris w).2).targetFile w
      = c.targetFile w
        ++ firstSeen (uris.filter (fun u => u ≠ [] ∧ u ∉ c.targetFile w)) :=
    (save_configs_components c now uris w).1.trans happ2
  have hmemN : ∀ u, u ∈ firstSeen (uris.filter (fun u => u ≠ [] ∧ u ∉ c.targetFile w))
      → u ∈ uris ∧ u ≠ [] ∧ u ∉ c.targetFile w := by
    intro u hu
    have := List.mem_filter.mp ((mem_firstSeen _ _).mp hu)
    refine ⟨this.1, by simpa using this.2⟩
  have h3 : ∀ u ∈ uris, u ≠ [] → u ∈ ((c.save_configs now uris w).2).targetFile w := by
    intro u hu hne
    rw [h1, List.mem_append]
    by_cases hin : u ∈ c.targetFile w
    · exact Or.inl hin
    · exact Or.inr ((mem_firstSeen _ _).mpr (List.mem_filter.mpr ⟨hu, by simp [hne, hin]⟩))
  have h4 : (((c.save_configs now uris w).2).targetFile w).Nodup := by
    rw [h1]
    refine List.nodup_append.mpr ⟨hnd, nodup_firstSeen _, fun a ha hb => ?_⟩
    exact (hmemN a hb).2.2 ha
  have hfile1 : ∀ l ∈ ((c.save_configs now uris w).2).targetFile w,
      trim l = l ∧ l ≠ [] := by
    intro l hl
    rw [h1, List.mem_append] at hl
    rcases hl with hl | hl
    · exact hfile l hl
    · obtain ⟨hu, hne, _⟩ := hmemN l hl
      exact ⟨huris l hu, hne⟩
  have hcn : collectNew (read_lines (((c.save_configs now uris w).2).targetFile w)) uris
      = [] := by
    rw [read_lines_id _ hfile1]
    refine collectNew_nil _ _ (fun u hu => ?_)
    by_cases hne : u = []
    · exact Or.inl hne
    · exact Or.inr (h3 u hu hne)
  have happB : append_unique_lines (((c.save_configs now uris w).2).targetFile w) uris
      = (0, ((c.save_configs now uris w).2).targetFile w) := by
    unfold append_unique_lines
    rw [hcn]
    simp
  refine ⟨h1, (save_configs_components c now uris w).2.trans happ1, h3, h4, ?_, ?_⟩
  · rw [(save_configs_components _ now2 uris w).2, happB]
  · rw [(save_configs_components _ now2 uris w).1, happB]

/-- C4 counterexample: with a prior file already containing a duplicate
line, a `Save` leaves the duplicate in place, so "afterwards the file has
no duplicate lines" fails for arbitrary prior contents. -/
theorem C4_prior_duplicates_counterexample :
    (SmartCache.save_configs ⟨[], ["a".data, "a".data], 0, 0⟩ 0 ["b".data] true).2.working_cache_file
      = ["a".data, "a".data, "b".data]
    ∧ ¬ (["a".data, "a".data, "b".data] : List Str).Nodup := by
  exact ⟨rfl, by decide⟩

/-- C4 witness: the amended theorem at a file ["x"] and input ["x", "y"]:
"y" is appended, and an immediate second save appends nothing. -/
theorem C4_save_append_dedup_witness :
    "y".data ∈ ((SmartCache.save_configs ⟨[], ["x".data], 0, 0⟩ 0
        ["x".data, "y".data] true).2).targetFile true
    ∧ (((SmartCache.save_configs ⟨[], ["x".data], 0, 0⟩ 0
        ["x".data, "y".data] true).2).save_configs 1 ["x".data, "y".data] true).1 = 0 := by
  have h := C4_save_append_dedup ⟨[], ["x".data], 0, 0⟩ 0 1 ["x".data, "y".data] true
    (by decide) (by decide) (by decide)
  exact ⟨h.2.2.1 "y".data (by decide) (by decide), h.2.2.2.2.1⟩

-- ======================================================================
-- C10
-- ======================================================================

def objOrNull : Json → Bool
  | .obj _ => true
  | .null => true
  | _ => false

/-- the field `k` of `j`, when present, is an object or `null`. -/
def keyObjOrNull (j : Json) (k : Str) : Bool :=
  match j.getKey? k with
  | some v => objOrNull v
  | none => true

/-- the field `k` of `j`, when present, is `null` or an object whose
`headers` field (when present) is an object or `null`. -/
def wsWF (j : Json) (k : Str) : Bool :=
  match j.getKey? k with
  | some (Json.obj ws) => keyObjOrNull (Json.obj ws) "headers".data
  | some Json.null => true
  | some _ => false
  | none => true

/-- the receivers of `operator[] =` reached by the SNI rewrite are objects
or `null` (anything else raises `type_error` in C++): `tlsSettings`,
`grpcSettings` and `wsSettings` when present under `streamSettings`, and
`headers` when present under `wsSettings`. -/
def obfWF (outbound : Json) : Bool :=
  match outbound.getKey? "streamSettings".data with
  | some s =>
      keyObjOrNull s "tlsSettings".data && keyObjOrNull s "grpcSettings".data
        && wsWF s "wsSettings".data
  | none => true

theorem findPair_isSome (k : Str) (fs : List (Str × Json)) :
    (fs.any (fun kv => kv.1 = k)) = (fs.find? (fun kv => kv.1 = k)).isSome := by
  induction fs with
  | nil => rfl
  | cons kv fs ih =>
    by_cases hk : kv.1 = k
    · rw [List.find?_cons_of_pos _ (by simpa using hk)]
      simp [hk]
    · rw [List.find?_cons_of_neg _ (by simpa using hk)]
      simp only [List.any_cons, ih]
      simp [hk]

theorem findPair_map_replace_self (k : Str) (f : Str × Json → Str × Json)
    (hf : ∀ kv, (f kv).1 = k) (fs : List (Str × Json)) :
    (fs.map (fun kv => if kv.1 = k then f kv else kv)).find? (fun kv => kv.1 = k)
      = (fs.find? (fun kv => kv.1 = k)).map f := by
  induction fs with
  | nil => rfl
  | cons kv fs ih =>
    by_cases hk : kv.1 = k
    · simp only [List.map_cons, if_pos hk]
      rw [List.find?_cons_of_pos _ (by simpa using hf kv),
        List.find?_cons_of_pos _ (by simpa using hk)]
      rfl
    · simp only [List.map_cons, if_neg hk]
      rw [List.find?_cons_of_neg _ (by simpa using hk),
        List.find?_cons_of_neg _ (by simpa using hk)]
      exact ih

theorem findPair_map_replace_ne (k k2 : Str) (hne : k2 ≠ k)
    (f : Str × Json → Str × Json) (hf : ∀ kv, (f kv).1 = k)
    (fs : List (Str × Json)) :
    (fs.map (fun kv => if kv.1 = k then f kv else kv)).find? (fun kv => kv.1 = k2)
      = fs.find? (fun kv => kv.1 = k2) := by
  induction fs with
  | nil => rfl
  | cons kv fs ih =>
    by_cases hk : kv.1 = k
    · have hkk : ¬ k = k2 := fun hh => hne hh.symm
      have hne2 : ¬ kv.1 = k2 := by rw [hk]; exact hkk
      simp only [List.map_cons, if_pos hk]
      rw [List.find?_cons_of_neg _ (by simp [hf kv, hkk]),
        List.find?_cons_of_neg _ (by simpa using hne2)]
      exact ih
    · simp only [List.map_cons, if_neg hk]
      by_cases hk2 : kv.1 = k2
      · rw [List.find?_cons_of_pos _ (by simpa using hk2),
          List.find?_cons_of_pos _ (by simpa using hk2)]
      · rw [List.find?_cons_of_neg _ (by simpa using hk2),
          List.find?_cons_of_neg _ (by simpa using hk2)]
        exact ih

theorem findPair_append_self (k : Str) (v : Json) (fs : List (Str × Json))
    (ha : fs.any (fun kv => kv.1 = k) = false) :
    (fs ++ [(k, v)]).find? (fun kv => kv.1 = k) = some (k, v) := by
  induction fs with
  | nil =>
    rw [List.nil_append, List.find?_cons_of_pos _ (by simp)]
  | cons kv fs ih =>
    simp only [List.any_cons, Bool.or_eq_false_iff] at ha
    rw [List.cons_append, List.find?_cons_of_neg _ (by simpa using ha.1)]
    exact ih ha.2

theorem findPair_append_ne (k k2 : Str) (hne : k2 ≠ k) (v : Json)
    (fs : List (Str × Json)) :
    (fs ++ [(k, v)]).find? (fun kv => kv.1 = k2) = fs.find? (fun kv => kv.1 = k2) := by
  induction fs with
  | nil =>
    have hkk : ¬ k = k2 := fun hh => hne hh.symm
    rw [List.nil_append, List.find?_cons_of_neg _ (by simpa using hkk)]
  | cons kv fs ih =>
    by_cases hk2 : kv.1 = k2
    · rw [List.cons_append, List.find?_cons_of_pos _ (by simpa using hk2),
        List.find?_cons_of_pos _ (by simpa using hk2)]
    · rw [List.cons_append, List.find?_cons_of_neg _ (by simpa using hk2),
        List.find?_cons_of_neg _ (by simpa using hk2)]
      exact ih

theorem containsKey_eq_isSome (j : Json) (k : Str) :
    j.containsKey k = (j.getKey? k).isSome := by
  cases j <;> try rfl
  rename_i fs
  simp only [Json.containsKey, Json.getKey?]
  rw [findPair_isSome k fs]
  cases fs.find? (fun kv => kv.1 = k) <;> rfl

theorem getKey?_modifyKey_self (fs : List (Str × Json)) (k : Str) (f : Json → Json)
    (v : Json) (h : (Json.obj fs).getKey? k = some v) :
    ((Json.obj fs).modifyKey k f).getKey? k = some (f v) := by
  simp only [Json.getKey?, Json.modifyKey] at *
  rw [show (fun kv : Str × Json => if kv.1 = k then (k, f kv.2) else kv)
      = (fun kv : Str × Json => if kv.1 = k then
          (fun kv2 : Str × Json => (k, f kv2.2)) kv else kv) from rfl,
    findPair_map_replace_self k _ (fun kv => rfl)]
  cases hf : fs.find? (fun kv => kv.1 = k) with
  | none => rw [hf] at h; cases h
  | some kv0 =>
    rw [hf] at h
    simp only [Option.map_some', Option.some.injEq] at h ⊢
    rw [← h]

theorem getKey?_modifyKey_ne (j : Json) (k k2 : Str) (f : Json → Json)
    (h : k2 ≠ k) : (j.modifyKey k f).getKey? k2 = j.getKey? k2 := by
  cases j <;> try rfl
  rename_i fs
  simp only [Json.getKey?, Json.modifyKey]
  rw [show (fun kv : Str × Json => if kv.1 = k then (k, f kv.2) else kv)
      = (fun kv : Str × Json => if kv.1 = k then
          (fun kv2 : Str × Json => (k, f kv2.2)) kv else kv) from rfl,
    findPair_map_replace_ne k k2 h _ (fun kv => rfl)]

theorem containsKey_modifyKey (j : Json) (k k2 : Str) (f : Json → Json) :
    (j.modifyKey k f).containsKey k2 = j.containsKey k2 := by
  rw [containsKey_eq_isSome, containsKey_eq_isSome]
  by_cases hk : k2 = k
  · subst hk
    cases j <;> try rfl
    rename_i fs
    cases hf : (Json.obj fs).getKey? k2 with
    | none =>
      simp only [Json.getKey?, Json.modifyKey] at hf ⊢
      rw [show (fun kv : Str × Json => if kv.1 = k2 then (k2, f kv.2) else kv)
          = (fun kv : Str × Json => if kv.1 = k2 then
              (fun kv2 : Str × Json => (k2, f kv2.2)) kv else kv) from rfl,
        findPair_map_replace_self k2 _ (fun kv => rfl)]
      cases hg : fs.find? (fun kv => kv.1 = k2) with
      | none => rfl
      | some kv0 => rw [hg] at hf; cases hf
    | some v =>
      rw [getKey?_modifyKey_self fs k2 f v hf]
      rfl
  · rw [getKey?_modifyKey_ne j k k2 f hk]

theorem getKey?_setKey_self (j : Json) (k : Str) (v : Json)
    (h : objOrNull j = true) : (j.setKey k v).getKey? k = some v := by
  cases j <;> simp only [objOrNull] at h <;> try cases h
  · simp [Json.setKey, Json.getKey?]
  · rename_i fs
    simp only [Json.setKey]
    by_cases ha : fs.any (fun kv => kv.1 = k)
    · rw [if_pos ha]
      simp only [Json.getKey?]
      rw [show (fun kv : Str × Json => if kv.1 = k then (k, v) else kv)
          = (fun kv : Str × Json => if kv.1 = k then
              (fun _ : Str × Json => (k, v)) kv else kv) from rfl,
        findPair_map_replace_self k _ (fun kv => rfl)]
      rw [findPair_isSome k fs] at ha
      cases hf : fs.find? (fun kv => kv.1 = k) with
      | none => rw [hf] at ha; cases ha
      | some kv0 => rfl
    · rw [if_neg ha]
      simp only [Json.getKey?]
      have ha2 : fs.any (fun kv => kv.1 = k) = false := by
        cases h2 : fs.any (fun kv => kv.1 = k)
        · rfl
        · exact absurd h2 ha
      rw [findPair_append_self k v fs ha2]
      rfl

theorem getKey?_setKey_ne (j : Json) (k : Str) (v : Json) (k2 : Str)
    (h : k2 ≠ k) : (j.setKey k v).getKey? k2 = j.getKey? k2 := by
  cases j <;> try rfl
  · have hkk : ¬ k = k2 := fun hh => h hh.symm
    simp [Json.setKey, Json.getKey?, hkk]
  · rename_i fs
    simp only [Json.setKey]
    by_cases ha : fs.any (fun kv => kv.1 = k)
    · rw [if_pos ha]
      simp only [Json.getKey?]
      rw [show (fun kv : Str × Json => if kv.1 = k then (k, v) else kv)
          = (fun kv : Str × Json => if kv.1 = k then
              (fun _ : Str × Json => (k, v)) kv else kv) from rfl,
        findPair_map_replace_ne k k2 h _ (fun kv => rfl)]
    · rw [if_neg ha]
      simp only [Json.getKey?]
      rw [findPair_append_ne k k2 h v fs]

theorem getPath_cons_some (j : Json) (k : Str) (ks : List Str) (v : Json)
    (h : j.getKey? k = some v) : j.getPath (k :: ks) = v.getPath ks := by
  simp [Json.getPath, h]

theorem getPath_cons_none (j : Json) (k : Str) (ks : List Str)
    (h : j.getKey? k = none) : j.getPath (k :: ks) = none := by
  simp [Json.getPath, h]

theorem condModify_getKey_ne (k : Str) (f : Json → Json) (s : Json) (k2 : Str)
    (h : k2 ≠ k) : (condModify k f s).getKey? k2 = s.getKey? k2 := by
  unfold condModify
  split
  · exact getKey?_modifyKey_ne s k k2 f h
  · rfl

theorem condModify_getKey_some (k : Str) (f : Json → Json) (s : Json) (v : Json)
    (h : s.getKey? k = some v) : (condModify k f s).getKey? k = some (f v) := by
  unfold condModify
  rw [if_pos (by rw [containsKey_eq_isSome, h]; rfl)]
  cases s <;> try simp [Json.getKey?] at h
  rename_i fs
  exact getKey?_modifyKey_self fs k f v h

theorem condModify_getKey_none (k : Str) (f : Json → Json) (s : Json)
    (h : s.getKey? k = none) : (condModify k f s).getKey? k = none := by
  unfold condModify
  rw [if_neg (by rw [containsKey_eq_isSome, h]; simp)]
  exact h

theorem rewrite_ss_getKey_ne (sni : Str) (s0 : Json) (k2 : Str)
    (h1 : k2 ≠ "tlsSettings".data) (h2 : k2 ≠ "grpcSettings".data)
    (h3 : k2 ≠ "wsSettings".data) :
    (rewrite_stream_settings sni s0).getKey? k2 = s0.getKey? k2 := by
  unfold rewrite_stream_settings
  rw [condModify_getKey_ne _ _ _ _ h3, condModify_getKey_ne _ _ _ _ h2,
    condModify_getKey_ne _ _ _ _ h1]

theorem rewrite_ss_tls_some (sni : Str) (s0 : Json) (tv : Json)
    (h : s0.getKey? "tlsSettings".data = some tv) :
    (rewrite_stream_settings sni s0).getKey? "tlsSettings".data
      = some (tv.setKey "serverName".data (.str sni)) := by
  unfold rewrite_stream_settings
  rw [condModify_getKey_ne _ _ _ _ (by decide), condModify_getKey_ne _ _ _ _ (by decide),
    condModify_getKey_some _ _ _ _ h]

theorem rewrite_ss_tls_none (sni : Str) (s0 : Json)
    (h : s0.getKey? "tlsSettings".data = none) :
    (rewrite_stream_settings sni s0).getKey? "tlsSettings".data = none := by
  unfold rewrite_stream_settings
  rw [condModify_getKey_ne _ _ _ _ (by decide), condModify_getKey_ne _ _ _ _ (by decide),
    condModify_getKey_none _ _ _ h]

theorem rewrite_ss_grpc_some (sni : Str) (s0 : Json) (gv : Json)
    (h : s0.getKey? "grpcSettings".data = some gv) :
    (rewrite_stream_settings sni s0).getKey? "grpcSettings".data
      = some (gv.setKey "authority".data (.str sni)) := by
  unfold rewrite_stream_settings
  rw [condModify_getKey_ne _ _ _ _ (by decide),
    condModify_getKey_some _ _ _ _ (by rw [condModify_getKey_ne _ _ _ _ (by decide)]; exact h)]

theorem rewrite_ss_grpc_none (sni : Str) (s0 : Json)
    (h : s0.getKey? "grpcSettings".data = none) :
    (rewrite_stream_settings sni s0).getKey? "grpcSettings".data = none := by
  unfold rewrite_stream_settings
  rw [condModify_getKey_ne _ _ _ _ (by decide),
    condModify_getKey_none _ _ _ (by rw [condModify_getKey_ne _ _ _ _ (by decide)]; exact h)]

theorem rewrite_ss_ws_some (sni : Str) (s0 : Json) (wv : Json)
    (h : s0.getKey? "wsSettings".data = some wv) :
    (rewrite_stream_settings sni s0).getKey? "wsSettings".data
      = some (ws_headers_rewrite sni wv) := by
  unfold rewrite_stream_settings
  rw [condModify_getKey_some _ _ _ _ (by
    rw [condModify_getKey_ne _ _ _ _ (by decide), condModify_getKey_ne _ _ _ _ (by decide)]
    exact h)]

theorem rewrite_ss_ws_none (sni : Str) (s0 : Json)
    (h : s0.getKey? "wsSettings".data = none) :
    (rewrite_stream_settings sni s0).getKey? "wsSettings".data = none := by
  unfold rewrite_stream_settings
  rw [condModify_getKey_none _ _ _ (by
    rw [condModify_getKey_ne _ _ _ _ (by decide), condModify_getKey_ne _ _ _ _ (by decide)]
    exact h)]

theorem ws_headers_rewrite_some (sni : Str) (wv hv : Json)
    (h : wv.getKey? "headers".data = some hv) :
    (ws_headers_rewrite sni wv).getKey? "headers".data
      = some (hv.setKey "Host".data (.str sni)) := by
  unfold ws_headers_rewrite
  rw [if_pos (by rw [containsKey_eq_isSome, h]; rfl)]
  cases wv <;> try simp [Json.getKey?] at h
  rename_i fs
  exact getKey?_modifyKey_self fs _ _ _ h

theorem ws_headers_rewrite_none (sni : Str) (wv : Json)
    (hwv : objOrNull wv = true) (h : wv.getKey? "headers".data = none) :
    (ws_headers_rewrite sni wv).getKey? "headers".data
      = some (Json.obj [("Host".data, Json.str sni)]) := by
  unfold ws_headers_rewrite
  rw [if_neg (by rw [containsKey_eq_isSome, h]; simp)]
  have hset : (wv.setKey "headers".data (Json.obj [])).getKey? "headers".data
      = some (Json.obj []) := getKey?_setKey_self wv _ _ hwv
  obtain ⟨fs2, hfs2⟩ : ∃ fs2, wv.setKey "headers".data (Json.obj []) = Json.obj fs2 := by
    cases wv <;> simp only [objOrNull] at hwv <;> try cases hwv
    · exact ⟨[("headers".data, Json.obj [])], rfl⟩
    · simp only [Json.setKey]
      exact ⟨_, rfl⟩
  rw [hfs2] at hset
  rw [hfs2, getKey?_modifyKey_self fs2 _ _ _ hset]
  rfl

theorem ws_headers_rewrite_ne (sni : Str) (wv : Json) (k : Str)
    (h : k ≠ "headers".data) :
    (ws_headers_rewrite sni wv).getKey? k = wv.getKey? k := by
  unfold ws_headers_rewrite
  rw [getKey?_modifyKey_ne _ _ _ _ h]
  split
  · rfl
  · exact getKey?_setKey_ne wv _ _ k h

theorem getPath_single (j : Json) (k : Str) : j.getPath [k] = j.getKey? k := by
  cases h : j.getKey? k
  · simp [Json.getPath, h]
  · simp [Json.getPath, h]

theorem getKey_single_self (k : Str) (v : Json) :
    (Json.obj [(k, v)]).getKey? k = some v := by
  simp [Json.getKey?]

theorem getKey_single_ne (k : Str) (v : Json) (k2 : Str) (h : k2 ≠ k) :
    (Json.obj [(k, v)]).getKey? k2 = none := by
  have hkk : ¬ k = k2 := fun hh => h hh.symm
  simp only [Json.getKey?]
  rw [List.find?_cons_of_neg _ (by simpa using hkk)]
  rfl

theorem containsKey_false_getKey_none (j : Json) (k : Str)
    (h : ¬ j.containsKey k = true) : j.getKey? k = none := by
  rw [containsKey_eq_isSome] at h
  cases hk : j.getKey? k
  · rfl
  · rw [hk] at h
    exact absurd rfl h

theorem rewrite_ss_id_of_not_obj (sni : Str) (s : Json)
    (h : ∀ fss, s ≠ Json.obj fss) : rewrite_stream_settings sni s = s := by
  have hc : ∀ k, s.containsKey k = false := by
    intro k
    cases s <;> first | rfl | exact absurd rfl (h _)
  unfold rewrite_stream_settings condModify
  rw [if_neg (by simp [hc]), if_neg (by simp [hc]), if_neg (by simp [hc])]

theorem getKey_not_obj_none (s : Json) (k : Str) (h : ∀ fss, s ≠ Json.obj fss) :
    s.getKey? k = none := by
  cases s <;> first | rfl | exact absurd rfl (h _)

theorem keyObjOrNull_spec (j : Json) (k : Str) (v : Json)
    (h : keyObjOrNull j k = true) (hv : j.getKey? k = some v) :
    objOrNull v = true := by
  unfold keyObjOrNull at h
  rw [hv] at h
  exact h

theorem wsWF_spec (j : Json) (k : Str) (wv : Json)
    (h : wsWF j k = true) (hv : j.getKey? k = some wv) :
    objOrNull wv = true
    ∧ (∀ hv2, wv.getKey? "headers".data = some hv2 → objOrNull hv2 = true) := by
  unfold wsWF at h
  rw [hv] at h
  rcases wv with _ | _ | _ | _ | _ | ws
  · exact ⟨rfl, fun hv2 hh => by cases hh⟩
  · cases h
  · cases h
  · cases h
  · cases h
  · exact ⟨rfl, fun hv2 hh => keyObjOrNull_spec _ _ _ h hh⟩

/-- C10 (amended): the SNI rewrite touches at most
`streamSettings.tlsSettings.serverName`, `streamSettings.grpcSettings.authority`
and `streamSettings.wsSettings.headers.Host`; `serverName` and `authority`
are set only when `tlsSettings` / `grpcSettings` exist, while `Host` is set
whenever `wsSettings` exists, creating the `headers` object when absent;
every other field is unchanged, and the outbound is returned entirely
unchanged when the engine is disabled or there is no `streamSettings`.
(The well-formedness hypothesis `obfWF` excludes the receivers on which the
C++ `operator[] =` would throw.) -/
theorem C10_obfuscation_frame (e : StealthObfuscationEngine) (outbound : Json) :
    (e.enabled = false → e.apply_obfuscation_to_config outbound = outbound)
    ∧ (outbound.containsKey "streamSettings".data = false →
        e.apply_obfuscation_to_config outbound = outbound)
    ∧ (e.enabled = true → obfWF outbound = true →
        (∀ k, k ≠ "streamSettings".data →
            (e.apply_obfuscation_to_config outbound).getKey? k = outbound.getKey? k)
        ∧ (∀ k2, k2 ≠ "tlsSettings".data → k2 ≠ "grpcSettings".data →
            k2 ≠ "wsSettings".data →
            (e.apply_obfuscation_to_config outbound).getPath ["streamSettings".data, k2]
              = outbound.getPath ["streamSettings".data, k2])
        ∧ (∀ tv, outbound.getPath ["streamSettings".data, "tlsSettings".data] = some tv →
            (e.apply_obfuscation_to_config outbound).getPath
                ["streamSettings".data, "tlsSettings".data, "serverName".data]
              = some (.str e.get_current_sni)
            ∧ (∀ k, k ≠ "serverName".data →
                (e.apply_obfuscation_to_config outbound).getPath
                    ["streamSettings".data, "tlsSettings".data, k]
                  = outbound.getPath ["streamSettings".data, "tlsSettings".data, k]))
        ∧ (outbound.getPath ["streamSettings".data, "tlsSettings".data] = none →
            (e.apply_obfuscation_to_config outbound).getPath
              ["streamSettings".data, "tlsSettings".data] = none)
        ∧ (∀ gv, outbound.getPath ["streamSettings".data, "grpcSettings".data] = some gv →
            (e.apply_obfuscation_to_config outbound).getPath
                ["streamSettings".data, "grpcSettings".data, "authority".data]
              = some (.str e.get_current_sni)
            ∧ (∀ k, k ≠ "authority".data →
                (e.apply_obfuscation_to_config outbound).getPath
                    ["streamSettings".data, "grpcSettings".data, k]
                  = outbound.getPath ["streamSettings".data, "grpcSettings".data, k]))
        ∧ (outbound.getPath ["streamSettings".data, "grpcSettings".data] = none →
            (e.apply_obfuscation_to_config outbound).getPath
              ["streamSettings".data, "grpcSettings".data] = none)
        ∧ (∀ wv, outbound.getPath ["streamSettings".data, "wsSettings".data] = some wv →
            (e.apply_obfuscation_to_config outbound).getPath
                ["streamSettings".data, "wsSettings".data, "headers".data, "Host".data]
              = some (.str e.get_current_sni)
            ∧ (∀ k, k ≠ "headers".data →
                (e.apply_obfuscation_to_config outbound).getPath
                    ["streamSettings".data, "wsSettings".data, k]
                  = outbound.getPath ["streamSettings".data, "wsSettings".data, k])
            ∧ (∀ k, k ≠ "Host".data →
                (e.apply_obfuscation_to_config outbound).getPath
                    ["streamSettings".data, "wsSettings".data, "headers".data, k]
                  = outbound.getPath
                      ["streamSettings".data, "wsSettings".data, "headers".data, k]))
        ∧ (outbound.getPath ["streamSettings".data, "wsSettings".data] = none →
            (e.apply_obfuscation_to_config outbound).getPath
              ["streamSettings".data, "wsSettings".data] = none)) := by
  refine ⟨fun hdis => ?_, fun hc => ?_, fun hen hwf => ?_⟩
  · simp [StealthObfuscationEngine.apply_obfuscation_to_config, hdis]
  · simp [StealthObfuscationEngine.apply_obfuscation_to_config, hc]
  by_cases hcont : outbound.containsKey "streamSettings".data
  case neg =>
    have happ : e.apply_obfuscation_to_config outbound = outbound := by
      simp [StealthObfuscationEngine.apply_obfuscation_to_config, hcont]
    have hnone : outbound.getKey? "streamSettings".data = none :=
      containsKey_false_getKey_none _ _ hcont
    have hpath : ∀ rest, outbound.getPath ("streamSettings".data :: rest) = none :=
      fun rest => getPath_cons_none _ _ _ hnone
    refine ⟨fun k _ => by rw [happ], fun k2 _ _ _ => by rw [happ],
      fun tv htv => absurd (htv.symm.trans (hpath _)) (by simp),
      fun _ => by rw [happ]; exact hpath _,
      fun gv hgv => absurd (hgv.symm.trans (hpath _)) (by simp),
      fun _ => by rw [happ]; exact hpath _,
      fun wv hwv => absurd (hwv.symm.trans (hpath _)) (by simp),
      fun _ => by rw [happ]; exact hpath _⟩
  case pos =>
    obtain ⟨settings, hS⟩ := Option.isSome_iff_exists.mp
      (by rw [← containsKey_eq_isSome]; exact hcont)
    obtain ⟨fs, rfl⟩ : ∃ fs, outbound = Json.obj fs := by
      cases outbound <;>
        first
          | exact ⟨_, rfl⟩
          | exact absurd hcont (by simp [Json.containsKey])
    have happ : e.apply_obfuscation_to_config (Json.obj fs)
        = (Json.obj fs).modifyKey "streamSettings".data
            (rewrite_stream_settings e.get_current_sni) := by
      simp [StealthObfuscationEngine.apply_obfuscation_to_config, hen, hcont]
    have hS' : (e.apply_obfuscation_to_config (Json.obj fs)).getKey?
        "streamSettings".data
        = some (rewrite_stream_settings e.get_current_sni settings) := by
      rw [happ]
      exact getKey?_modifyKey_self fs _ _ _ hS
    have hA : ∀ k, k ≠ "streamSettings".data →
        (e.apply_obfuscation_to_config (Json.obj fs)).getKey? k
          = (Json.obj fs).getKey? k := by
      intro k hk
      rw [happ]
      exact getKey?_modifyKey_ne _ _ _ _ hk
    by_cases hso : ∃ fss, settings = Json.obj fss
    case neg =>
      push_neg at hso
      have hid : rewrite_stream_settings e.get_current_sni settings = settings :=
        rewrite_ss_id_of_not_obj _ _ hso
      have hkn : ∀ k, settings.getKey? k = none :=
        fun k => getKey_not_obj_none _ _ hso
      have hBall : ∀ k2, (e.apply_obfuscation_to_config (Json.obj fs)).getPath
          ["streamSettings".data, k2]
          = (Json.obj fs).getPath ["streamSettings".data, k2] := by
        intro k2
        rw [getPath_cons_some _ _ _ _ hS', getPath_cons_some _ _ _ _ hS, hid]
      have hPnone : ∀ k2 rest, (Json.obj fs).getPath
          ("streamSettings".data :: k2 :: rest) = none := by
        intro k2 rest
        rw [getPath_cons_some _ _ _ _ hS]
        exact getPath_cons_none _ _ _ (hkn k2)
      have hPnone' : ∀ k2, (e.apply_obfuscation_to_config (Json.obj fs)).getPath
          ["streamSettings".data, k2] = none := by
        intro k2
        rw [getPath_cons_some _ _ _ _ hS', hid, getPath_single]
        exact hkn k2
      refine ⟨hA, fun k2 _ _ _ => hBall k2,
        fun tv htv => absurd (htv.symm.trans (hPnone _ [])) (by simp),
        fun _ => hPnone' _,
        fun gv hgv => absurd (hgv.symm.trans (hPnone _ [])) (by simp),
        fun _ => hPnone' _,
        fun wv hwv => absurd (hwv.symm.trans (hPnone _ [])) (by simp),
        fun _ => hPnone' _⟩
    case pos =>
      obtain ⟨fss, rfl⟩ := hso
      have hwf2 : obfWF (Json.obj fs) = true := hwf
      unfold obfWF at hwf2
      rw [hS] at hwf2
      simp only [Bool.and_eq_true] at hwf2
      obtain ⟨⟨hwtls, hwgrpc⟩, hwws⟩ := hwf2
      refine ⟨hA, ?_, ?_, ?_, ?_, ?_, ?_, ?_⟩
      · intro k2 h1 h2 h3
        rw [getPath_cons_some _ _ _ _ hS', getPath_cons_some _ _ _ _ hS,
          getPath_single, getPath_single]
        exact rewrite_ss_getKey_ne _ _ _ h1 h2 h3
      · intro tv htv
        rw [getPath_cons_some _ _ _ _ hS, getPath_single] at htv
        have hwftv : objOrNull tv = true := keyObjOrNull_spec _ _ _ hwtls htv
        constructor
        · rw [getPath_cons_some _ _ _ _ hS',
            getPath_cons_some _ _ _ _ (rewrite_ss_tls_some _ _ _ htv), getPath_single]
          exact getKey?_setKey_self tv _ _ hwftv
        · intro k hk
          rw [getPath_cons_some _ _ _ _ hS',
            getPath_cons_some _ _ _ _ (rewrite_ss_tls_some _ _ _ htv),
            getPath_cons_some _ _ _ _ hS, getPath_cons_some _ _ _ _ htv,
            getPath_single, getPath_single]
          exact getKey?_setKey_ne tv _ _ k hk
      · intro htn
        rw [getPath_cons_some _ _ _ _ hS, getPath_single] at htn
        rw [getPath_cons_some _ _ _ _ hS', getPath_single]
        exact rewrite_ss_tls_none _ _ htn
      · intro gv hgv
        rw [getPath_cons_some _ _ _ _ hS, getPath_single] at hgv
        have hwfgv : objOrNull gv = true := keyObjOrNull_spec _ _ _ hwgrpc hgv
        constructor
        · rw [getPath_cons_some _ _ _ _ hS',
            getPath_cons_some _ _ _ _ (rewrite_ss_grpc_some _ _ _ hgv), getPath_single]
          exact getKey?_setKey_self gv _ _ hwfgv
        · intro k hk
          rw [getPath_cons_some _ _ _ _ hS',
            getPath_cons_some _ _ _ _ (rewrite_ss_grpc_some _ _ _ hgv),
            getPath_cons_some _ _ _ _ hS, getPath_cons_some _ _ _ _ hgv,
            getPath_single, getPath_single]
          exact getKey?_setKey_ne gv _ _ k hk
      · intro hgn
        rw [getPath_cons_some _ _ _ _ hS, getPath_single] at hgn
        rw [getPath_cons_some _ _ _ _ hS', getPath_single]
        exact rewrite_ss_grpc_none _ _ hgn
      · intro wv hwv
        rw [getPath_cons_some _ _ _ _ hS, getPath_single] at hwv
        obtain ⟨hwvon, hHeadWF⟩ := wsWF_spec _ _ _ hwws hwv
        refine ⟨?_, ?_, ?_⟩
        · cases hh : wv.getKey? "headers".data with
          | some hv =>
            have hwfhv : objOrNull hv = true := hHeadWF hv hh
            rw [getPath_cons_some _ _ _ _ hS',
              getPath_cons_some _ _ _ _ (rewrite_ss_ws_some _ _ _ hwv),
              getPath_cons_some _ _ _ _ (ws_headers_rewrite_some _ _ _ hh),
              getPath_single]
            exact getKey?_setKey_self hv _ _ hwfhv
          | none =>
            rw [getPath_cons_some _ _ _ _ hS',
              getPath_cons_some _ _ _ _ (rewrite_ss_ws_some _ _ _ hwv),
              getPath_cons_some _ _ _ _ (ws_headers_rewrite_none _ _ hwvon hh),
              getPath_single]
            exact getKey_single_self _ _
        · intro k hk
          rw [getPath_cons_some _ _ _ _ hS',
            getPath_cons_some _ _ _ _ (rewrite_ss_ws_some _ _ _ hwv),
            getPath_cons_some _ _ _ _ hS, getPath_cons_some _ _ _ _ hwv,
            getPath_single, getPath_single]
          exact ws_headers_rewrite_ne _ _ _ hk
        · intro k hk
          cases hh : wv.getKey? "headers".data with
          | some hv =>
            rw [getPath_cons_some _ _ _ _ hS',
              getPath_cons_some _ _ _ _ (rewrite_ss_ws_some _ _ _ hwv),
              getPath_cons_some _ _ _ _ (ws_headers_rewrite_some _ _ _ hh),
              getPath_cons_some _ _ _ _ hS, getPath_cons_some _ _ _ _ hwv,
              getPath_cons_some _ _ _ _ hh, getPath_single, getPath_single]
            exact getKey?_setKey_ne hv _ _ k hk
          | none =>
            rw [getPath_cons_some _ _ _ _ hS',
              getPath_cons_some _ _ _ _ (rewrite_ss_ws_some _ _ _ hwv),
              getPath_cons_some _ _ _ _ (ws_headers_rewrite_none _ _ hwvon hh),
              getPath_cons_some _ _ _ _ hS, getPath_cons_some _ _ _ _ hwv,
              getPath_cons_none _ _ _ hh, getPath_single]
            exact getKey_single_ne _ _ _ hk
      · intro hwn
        rw [getPath_cons_some _ _ _ _ hS, getPath_single] at hwn
        rw [getPath_cons_some _ _ _ _ hS', getPath_single]
        exact rewrite_ss_ws_none _ _ hwn

def obfE : StealthObfuscationEngine := { enabled := true }

def obfCfg : Json := Json.obj [("streamSettings".data, Json.obj [
  ("wsSettings".data, Json.obj [("path".data, Json.str "/".data)])])]

def obfCfg2 : Json := Json.obj [
  ("protocol".data, Json.str "vless".data),
  ("streamSettings".data, Json.obj [("tlsSettings".data, Json.null)])]

/-- C10 counterexample: on an outbound whose `wsSettings` exists but has no
`headers` object, the rewrite creates `headers` and sets `Host` to the
current SNI — although the claim allows a write only when the enclosing
object already exists, which would leave the outbound unchanged. -/
theorem C10_headers_created_counterexample :
    obfCfg.getPath ["streamSettings".data, "wsSettings".data, "headers".data,
      "Host".data] = none
    ∧ Json.asStr ((obfE.apply_obfuscation_to_config obfCfg).getPath
        ["streamSettings".data, "wsSettings".data, "headers".data, "Host".data])
      = some "cloudflare.com".data :=
  ⟨rfl, rfl⟩

/-- C10 witness: the amended frame theorem on a concrete outbound with a
(null) `tlsSettings`: `serverName` is set to the SNI and `protocol` is
untouched. -/
theorem C10_obfuscation_frame_witness :
    (obfE.apply_obfuscation_to_config obfCfg2).getPath
        ["streamSettings".data, "tlsSettings".data, "serverName".data]
      = some (Json.str obfE.get_current_sni)
    ∧ (obfE.apply_obfuscation_to_config obfCfg2).getKey? "protocol".data
        = obfCfg2.getKey? "protocol".data := by
  have h := (C10_obfuscation_frame obfE obfCfg2).2.2 rfl (by decide)
  exact ⟨(h.2.2.1 Json.null rfl).1, h.1 "protocol".data (by decide)⟩

-- ---------- C3: prioritize_configs (core/utils.cpp 414-503) ----------

/-- the tier vector of `ts` holding tier `i` (for `i` in 1..8; any other
index names the catch-all `tier8`, matching `Tiers.push`). -/
def Tiers.get (ts : Tiers) : Nat → List Str
  | 1 => ts.t1
  | 2 => ts.t2
  | 3 => ts.t3
  | 4 => ts.t4
  | 5 => ts.t5
  | 6 => ts.t6
  | 7 => ts.t7
  | _ => ts.t8

/-- concatenation of the eight tier vectors, in the order
`prioritize_configs` emits them. -/
def Tiers.flatten (ts : Tiers) : List Str :=
  ts.t1 ++ ts.t2 ++ ts.t3 ++ ts.t4 ++ ts.t5 ++ ts.t6 ++ ts.t7 ++ ts.t8

/-- membership test for tier `i`: not blocked and classified into tier `i`. -/
def tierPred (i : Nat) (u : Str) : Bool :=
  !(is_likely_blocked u) && decide (classify_tier u = i)

theorem classify_tier_bounds (uri : Str) :
    1 ≤ classify_tier uri ∧ classify_tier uri ≤ 8 := by
  simp only [classify_tier]
  repeat' split
  all_goals omega

theorem buildTiers_snoc (uris : List Str) (u : Str) :
    buildTiers (uris ++ [u]) =
      if is_likely_blocked u then buildTiers uris
      else (buildTiers uris).push (classify_tier u) u := by
  unfold buildTiers
  rw [List.foldl_append]
  rfl

theorem push_get (ts : Tiers) (i j : Nat) (u : Str)
    (hi1 : 1 ≤ i) (hi8 : i ≤ 8) (hj1 : 1 ≤ j) (hj8 : j ≤ 8) :
    (ts.push i u).get j = ts.get j ++ (if i = j then [u] else []) := by
  interval_cases i <;> interval_cases j <;> simp [Tiers.push, Tiers.get]

theorem buildTiers_get (uris : List Str) (j : Nat) (hj1 : 1 ≤ j) (hj8 : j ≤ 8) :
    (buildTiers uris).get j = uris.filter (tierPred j) := by
  induction uris using List.reverseRecOn with
  | nil => interval_cases j <;> rfl
  | append_singleton l u ih =>
    rw [buildTiers_snoc, List.filter_append]
    by_cases hb : is_likely_blocked u
    · rw [if_pos hb]
      have h1 : List.filter (tierPred j) [u] = [] := by simp [tierPred, hb]
      rw [h1, List.append_nil]
      exact ih
    · rw [if_neg hb]
      have hc := classify_tier_bounds u
      rw [push_get _ _ _ u hc.1 hc.2 hj1 hj8, ih]
      by_cases hcj : classify_tier u = j
      · have h1 : List.filter (tierPred j) [u] = [u] := by simp [tierPred, hb, hcj]
        rw [h1, if_pos hcj]
      · have h1 : List.filter (tierPred j) [u] = [] := by simp [tierPred, hb, hcj]
        rw [h1, if_neg hcj]

theorem flatten_push_perm (ts : Tiers) (i : Nat) (u : Str)
    (hi1 : 1 ≤ i) (hi8 : i ≤ 8) :
    ((ts.push i u).flatten).Perm (u :: ts.flatten) := by
  rw [List.perm_iff_count]
  intro a
  by_cases hu : u = a <;>
    interval_cases i <;>
      simp [Tiers.push, Tiers.flatten, List.count_append, List.count_cons, hu] <;>
        omega

theorem flatten_buildTiers_perm (uris : List Str) :
    ((buildTiers uris).flatten).Perm
      (uris.filter (fun u => !is_likely_blocked u)) := by
  induction uris using List.reverseRecOn with
  | nil => exact List.Perm.refl []
  | append_singleton l u ih =>
    rw [buildTiers_snoc, List.filter_append]
    by_cases hb : is_likely_blocked u
    · rw [if_pos hb]
      have h1 : List.filter (fun u => !is_likely_blocked u) [u] = [] := by simp [hb]
      rw [h1, List.append_nil]
      exact ih
    · rw [if_neg hb]
      have h1 : List.filter (fun u => !is_likely_blocked u) [u] = [u] := by simp [hb]
      rw [h1]
      have hc := classify_tier_bounds u
      exact ((flatten_push_perm _ _ u hc.1 hc.2).trans (ih.cons u)).trans
        (List.perm_append_singleton u _).symm

theorem mem_shuffle_tier (shuffle : List Str → List Str)
    (hs : ∀ l : List Str, (shuffle l).Perm l) (uris : List Str)
    (j : Nat) (hj1 : 1 ≤ j) (hj8 : j ≤ 8) :
    ∀ x ∈ shuffle ((buildTiers uris).get j), classify_tier x = j := by
  intro x hx
  have hx2 : x ∈ (buildTiers uris).get j := ((hs _).mem_iff).1 hx
  rw [buildTiers_get uris j hj1 hj8] at hx2
  have h := (List.mem_filter.mp hx2).2
  simp only [tierPred, Bool.and_eq_true, decide_eq_true_eq] at h
  exact h.2

theorem pairwise_tier_extend (f : Str → Nat) (i j : Nat) (hij : i ≤ j)
    (X B : List Str)
    (hX : List.Pairwise (fun a b => f a ≤ f b) X)
    (hXle : ∀ x ∈ X, f x ≤ i)
    (hB : ∀ x ∈ B, f x = j) :
    List.Pairwise (fun a b => f a ≤ f b) (X ++ B) ∧ ∀ x ∈ X ++ B, f x ≤ j := by
  constructor
  · rw [List.pairwise_append]
    refine ⟨hX, List.pairwise_of_forall_mem_list (fun a ha b hb => ?_),
      fun a ha b hb => ?_⟩
    · rw [hB a ha, hB b hb]
    · rw [hB b hb]
      exact le_trans (hXle a ha) hij
  · intro x hx
    rcases List.mem_append.mp hx with h | h
    · exact le_trans (hXle x h) hij
    · exact le_of_eq (hB x h)

/-- C3: for every shuffle that permutes its input (as `std::shuffle` does),
`prioritize_configs` returns a permutation of the input minus the blocked
URIs, no blocked URI appears in the output, the output is sorted by tier
(tier-1 URIs first through tier 8), IPv6 bracketed-host URIs are classified
into tier 7, and empty or all-blocked input yields empty output. -/
theorem C3_prioritizer_spec (shuffle : List Str → List Str)
    (hs : ∀ l : List Str, (shuffle l).Perm l) (uris : List Str) :
    (prioritize_configs shuffle uris).Perm
        (uris.filter (fun u => !is_likely_blocked u))
    ∧ (∀ u ∈ prioritize_configs shuffle uris, is_likely_blocked u = false)
    ∧ List.Pairwise (fun a b => classify_tier a ≤ classify_tier b)
        (prioritize_configs shuffle uris)
    ∧ (∀ u : Str, is_ipv4_preferred u = false → classify_tier u = 7)
    ∧ (uris = [] → prioritize_configs shuffle uris = [])
    ∧ ((∀ u ∈ uris, is_likely_blocked u = true) →
        prioritize_configs shuffle uris = []) := by
  have hP : (prioritize_configs shuffle uris).Perm ((buildTiers uris).flatten) := by
    show (shuffle (buildTiers uris).t1 ++ shuffle (buildTiers uris).t2 ++
        shuffle (buildTiers uris).t3 ++ shuffle (buildTiers uris).t4 ++
        shuffle (buildTiers uris).t5 ++ shuffle (buildTiers uris).t6 ++
        shuffle (buildTiers uris).t7 ++ shuffle (buildTiers uris).t8).Perm
      ((buildTiers uris).t1 ++ (buildTiers uris).t2 ++ (buildTiers uris).t3 ++
        (buildTiers uris).t4 ++ (buildTiers uris).t5 ++ (buildTiers uris).t6 ++
        (buildTiers uris).t7 ++ (buildTiers uris).t8)
    exact (((((((hs _).append (hs _)).append (hs _)).append (hs _)).append
      (hs _)).append (hs _)).append (hs _)).append (hs _)
  have hperm := hP.trans (flatten_buildTiers_perm uris)
  have hB1 := mem_shuffle_tier shuffle hs uris 1 (by norm_num) (by norm_num)
  have hB2 := mem_shuffle_tier shuffle hs uris 2 (by norm_num) (by norm_num)
  have hB3 := mem_shuffle_tier shuffle hs uris 3 (by norm_num) (by norm_num)
  have hB4 := mem_shuffle_tier shuffle hs uris 4 (by norm_num) (by norm_num)
  have hB5 := mem_shuffle_tier shuffle hs uris 5 (by norm_num) (by norm_num)
  have hB6 := mem_shuffle_tier shuffle hs uris 6 (by norm_num) (by norm_num)
  have hB7 := mem_shuffle_tier shuffle hs uris 7 (by norm_num) (by norm_num)
  have hB8 := mem_shuffle_tier shuffle hs uris 8 (by norm_num) (by norm_num)
  have P1 : List.Pairwise (fun a b => classify_tier a ≤ classify_tier b)
        (shuffle ((buildTiers uris).get 1))
      ∧ ∀ x ∈ shuffle ((buildTiers uris).get 1), classify_tier x ≤ 1 := by
    constructor
    · exact List.pairwise_of_forall_mem_list (fun a ha b hb => by
        rw [hB1 a ha, hB1 b hb])
    · exact fun x hx => le_of_eq (hB1 x hx)
  have P2 := pairwise_tier_extend classify_tier 1 2 (by norm_num) _ _ P1.1 P1.2 hB2
  have P3 := pairwise_tier_extend classify_tier 2 3 (by norm_num) _ _ P2.1 P2.2 hB3
  have P4 := pairwise_tier_extend classify_tier 3 4 (by norm_num) _ _ P3.1 P3.2 hB4
  have P5 := pairwise_tier_extend classify_tier 4 5 (by norm_num) _ _ P4.1 P4.2 hB5
  have P6 := pairwise_tier_extend classify_tier 5 6 (by norm_num) _ _ P5.1 P5.2 hB6
  have P7 := pairwise_tier_extend classify_tier 6 7 (by norm_num) _ _ P6.1 P6.2 hB7
  have P8 := pairwise_tier_extend classify_tier 7 8 (by norm_num) _ _ P7.1 P7.2 hB8
  have hall6 : (∀ u ∈ uris, is_likely_blocked u = true) →
      prioritize_configs shuffle uris = [] := by
    intro hall
    have hf : ∀ j, 1 ≤ j → j ≤ 8 → (buildTiers uris).get j = ([] : List Str) := by
      intro j hj1 hj8
      rw [buildTiers_get uris j hj1 hj8]
      rw [List.filter_eq_nil_iff]
      intro a ha
      simp [tierPred, hall a ha]
    have hsn : ∀ j, 1 ≤ j → j ≤ 8 →
        shuffle ((buildTiers uris).get j) = [] := by
      intro j hj1 hj8
      rw [hf j hj1 hj8]
      exact (hs []).eq_nil
    show shuffle ((buildTiers uris).get 1) ++ shuffle ((buildTiers uris).get 2) ++
        shuffle ((buildTiers uris).get 3) ++ shuffle ((buildTiers uris).get 4) ++
        shuffle ((buildTiers uris).get 5) ++ shuffle ((buildTiers uris).get 6) ++
        shuffle ((buildTiers uris).get 7) ++ shuffle ((buildTiers uris).get 8) = []
    rw [hsn 1 (by norm_num) (by norm_num), hsn 2 (by norm_num) (by norm_num),
      hsn 3 (by norm_num) (by norm_num), hsn 4 (by norm_num) (by norm_num),
      hsn 5 (by norm_num) (by norm_num), hsn 6 (by norm_num) (by norm_num),
      hsn 7 (by norm_num) (by norm_num), hsn 8 (by norm_num) (by norm_num)]
    rfl
  refine ⟨hperm, ?_, ?_, ?_, ?_, hall6⟩
  · intro u hu
    have hu2 : u ∈ uris.filter (fun u => !is_likely_blocked u) :=
      (hperm.mem_iff).1 hu
    have h := (List.mem_filter.mp hu2).2
    simpa using h
  · exact P8.1
  · intro u h
    simp [classify_tier, h]
  · intro h
    subst h
    exact hall6 (fun u hu => absurd hu (List.not_mem_nil u))

/-- C3 witness: the prioritizer with the identity shuffle on a concrete
list (a tier-6 trojan URI, a blocked URI containing `127.0.0.1`, and a
tier-8 shadowsocks URI): the blocked URI is dropped, the output permutes
the unblocked input and is tier-sorted. -/
theorem C3_prioritizer_spec_witness :
    prioritize_configs id
        ["trojan://x@a:443".data, "vless://u@127.0.0.1:443".data, "ss://u@b:80".data]
      = ["trojan://x@a:443".data, "ss://u@b:80".data]
    ∧ (prioritize_configs id
        ["trojan://x@a:443".data, "vless://u@127.0.0.1:443".data, "ss://u@b:80".data]).Perm
        ((["trojan://x@a:443".data, "vless://u@127.0.0.1:443".data,
          "ss://u@b:80".data]).filter (fun u => !is_likely_blocked u))
    ∧ List.Pairwise (fun a b => classify_tier a ≤ classify_tier b)
        (prioritize_configs id
          ["trojan://x@a:443".data, "vless://u@127.0.0.1:443".data,
            "ss://u@b:80".data]) :=
  ⟨rfl,
   (C3_prioritizer_spec id (fun l => List.Perm.refl l) _).1,
   (C3_prioritizer_spec id (fun l => List.Perm.refl l) _).2.2.1⟩

end Hunter
